import Mathlib

/-!
Verification of `src/compress.js`.

A shallow embedding of the pixel preprocessing and benchmarking pipeline of
`compress.js`, followed by theorems about it.

Numbers. A JavaScript number is embedded as `JSNum`: an exact rational, or one
of the three non-finite values `Infinity`, `-Infinity`, `NaN`.  Arithmetic on
finite values is exact (the rounding error of binary64 is not modelled); the
only operation of the windowing code that can leave the finite values is the
division by `maxHU - minHU`, which follows the IEEE rules for a zero divisor.
-/

set_option linter.unusedVariables false

namespace Compress

/-! ## JavaScript numbers -/

/-- A JavaScript number: an exact rational or a non-finite value. -/
inductive JSNum where
  | fin (q : ℚ)
  | posInf
  | negInf
  | nan
deriving DecidableEq

namespace JSNum

/-- The quotient `a / b` of two finite numbers.  A zero divisor gives
`Infinity`, `-Infinity` or `NaN` according to the sign of the dividend (the
divisor of the windowing code is a difference, hence `+0` when it is zero). -/
def div (a b : ℚ) : JSNum :=
  if b = 0 then
    if a = 0 then nan else if 0 < a then posInf else negInf
  else fin (a / b)

/-- The product `x * k` with a finite, strictly positive right factor. -/
def mulPos (x : JSNum) (k : ℚ) : JSNum :=
  match x with
  | fin q => fin (q * k)
  | posInf => posInf
  | negInf => negInf
  | nan => nan

/-- The function `Math.round`: the nearest integer, ties towards `+Infinity`. -/
def round (x : JSNum) : JSNum :=
  match x with
  | fin q => fin (⌊q + 1 / 2⌋ : ℤ)
  | posInf => posInf
  | negInf => negInf
  | nan => nan

/-- The function `Math.min(k, x)` with a finite first argument. -/
def minWith (k : ℚ) (x : JSNum) : JSNum :=
  match x with
  | fin q => fin (min k q)
  | posInf => fin k
  | negInf => negInf
  | nan => nan

/-- The function `Math.max(k, x)` with a finite first argument. -/
def maxWith (k : ℚ) (x : JSNum) : JSNum :=
  match x with
  | fin q => fin (max k q)
  | posInf => posInf
  | negInf => fin k
  | nan => nan

/-- The conversion applied when a number is stored in a `Uint8Array`
(`bits = 8`) or a `Uint16Array` (`bits = 16`): non-finite values become `0`,
finite ones are truncated towards zero and reduced modulo `2 ^ bits`. -/
def toUint (bits : ℕ) (x : JSNum) : ℕ :=
  match x with
  | fin q => ((if 0 ≤ q then ⌊q⌋ else ⌈q⌉) % (2 ^ bits : ℤ)).toNat
  | _ => 0

/-- The sum `x + y`. -/
def add (x y : JSNum) : JSNum :=
  match x, y with
  | fin a, fin b => fin (a + b)
  | nan, _ => nan
  | _, nan => nan
  | posInf, negInf => nan
  | negInf, posInf => nan
  | posInf, _ => posInf
  | _, posInf => posInf
  | negInf, _ => negInf
  | _, negInf => negInf

/-- The quotient `x / k` with a finite, strictly positive divisor. -/
def divPos (x : JSNum) (k : ℚ) : JSNum :=
  match x with
  | fin q => fin (q / k)
  | posInf => posInf
  | negInf => negInf
  | nan => nan

end JSNum

/-! ## Ratio to quality mapping -/

/-- The function `mapCompressionRatioToJpegQuality`. -/
def mapCompressionRatioToJpegQuality (ratio : ℚ) : ℕ :=
  if ratio ≥ 50 then 10
  else if ratio ≥ 30 then 25
  else if ratio ≥ 20 then 40
  else if ratio ≥ 10 then 60
  else if ratio ≥ 5 then 80
  else 90

/-! ## Windowing -/

/-- The rescale and window arguments shared by the windowing code. -/
structure WindowParameters where
  rescaleSlope : ℚ
  rescaleIntercept : ℚ
  windowCenter : ℚ
  windowWidth : ℚ
deriving DecidableEq

/-- The default arguments `1, -1024, 40, 350`. -/
def defaultWindow : WindowParameters :=
  { rescaleSlope := 1, rescaleIntercept := -1024, windowCenter := 40, windowWidth := 350 }

/-- The constant `minHU = windowCenter - windowWidth / 2`. -/
def minHU (p : WindowParameters) : ℚ := p.windowCenter - p.windowWidth / 2

/-- The constant `maxHU = windowCenter + windowWidth / 2`. -/
def maxHU (p : WindowParameters) : ℚ := p.windowCenter + p.windowWidth / 2

/-- The value `hu = (uint16Array[i] * rescaleSlope) + rescaleIntercept`. -/
def hu (p : WindowParameters) (s : ℕ) : ℚ := (s : ℚ) * p.rescaleSlope + p.rescaleIntercept

/-- The number assigned to `processedData[i]` in `applyWindowingToPixelData`,
before the `Uint16Array` store converts it. -/
def windowValue16 (p : WindowParameters) (s : ℕ) : JSNum :=
  if hu p s ≤ minHU p then JSNum.fin 0
  else if hu p s ≥ maxHU p then JSNum.fin 65535
  else JSNum.round (JSNum.mulPos (JSNum.div (hu p s - minHU p) (maxHU p - minHU p)) 65535)

/-- The number assigned to `uint8Array[i]` in the loop of `compressToJpg`,
before the `Uint8Array` store converts it. -/
def windowValue8 (p : WindowParameters) (s : ℕ) : JSNum :=
  let scaled := JSNum.mulPos (JSNum.div (hu p s - minHU p) (maxHU p - minHU p)) 255
  JSNum.maxWith 0 (JSNum.minWith 255 (JSNum.round scaled))

/-- The sample stored in `processedData[i]`. -/
def windowSample16 (p : WindowParameters) (s : ℕ) : ℕ := JSNum.toUint 16 (windowValue16 p s)

/-- The sample stored in `uint8Array[i]`. -/
def windowSample8 (p : WindowParameters) (s : ℕ) : ℕ := JSNum.toUint 8 (windowValue8 p s)

/-- The rule of the specification for an output range `[0, maxOutput]`: hard
clamping at both ends of the window and `round` of the linear remap between. -/
def piecewiseWindow (maxOutput : ℤ) (p : WindowParameters) (s : ℕ) : ℤ :=
  if hu p s ≤ minHU p then 0
  else if hu p s ≥ maxHU p then maxOutput
  else ⌊(hu p s - minHU p) / (maxHU p - minHU p) * maxOutput + 1 / 2⌋

/-! ## Sample buffers -/

/-- The samples a `Uint16Array` view exposes over a byte buffer: one sample
per complete pair of bytes, combined in the byte order of the host
(`littleEndian = true` on x86 and ARM). -/
def readUint16 (littleEndian : Bool) : List ℕ → List ℕ
  | b0 :: b1 :: rest =>
    (if littleEndian then b0 + 256 * b1 else 256 * b0 + b1) :: readUint16 littleEndian rest
  | _ => []

/-- The bytes of the `ArrayBuffer` backing a `Uint16Array`: two bytes per
sample, in the byte order of the host. -/
def writeUint16 (littleEndian : Bool) : List ℕ → List ℕ
  | [] => []
  | s :: rest =>
    (if littleEndian then [s % 256, s / 256] else [s / 256, s % 256])
      ++ writeUint16 littleEndian rest

/-- The function `applyWindowingToPixelData`: the raw buffer is viewed as
16-bit samples, each sample is windowed to the 16-bit range, and the bytes of
the resulting `Uint16Array` are returned. -/
def applyWindowingToPixelData (littleEndian : Bool) (rawPixelData : List ℕ)
    (bitsAllocated : ℕ) (p : WindowParameters) : List ℕ :=
  let uint16Array := readUint16 littleEndian rawPixelData
  let processedData := uint16Array.map (windowSample16 p)
  writeUint16 littleEndian processedData

/-- The buffer `inputBuffer` that `compressToJpg` hands to the encoder: the
8-bit windowed samples when `bitsAllocated > 8`, the raw buffer otherwise. -/
def jpgInputBuffer (littleEndian : Bool) (rawPixelData : List ℕ)
    (bitsAllocated : ℕ) (p : WindowParameters) : List ℕ :=
  if bitsAllocated > 8 then
    let uint16Array := readUint16 littleEndian rawPixelData
    uint16Array.map (windowSample8 p)
  else rawPixelData

/-! ## The file system, the clock and the external encoders -/

/-- The part of the outside world the codec adapters act on: the files (path
and content) and the reading of `performance.now()`. -/
structure World where
  files : List (String × List ℕ)
  clock : ℚ

namespace World

/-- The call `fs.existsSync(path)`. -/
def existsSync (w : World) (path : String) : Bool := (w.files.lookup path).isSome

/-- The call `fs.readFileSync(path)`; it throws when the file is absent. -/
def readFileSync (w : World) (path : String) : Except String (List ℕ) :=
  match w.files.lookup path with
  | some data => .ok data
  | none => .error ("ENOENT: no such file or directory, open " ++ path)

/-- The call `fs.writeFileSync(path, data)`: the file is created or replaced. -/
def writeFileSync (w : World) (path : String) (data : List ℕ) : World :=
  { w with files := (path, data) :: w.files.filter (fun f => f.1 ≠ path) }

/-- The call `fs.unlinkSync(path)`; it throws when the file is absent. -/
def unlinkSync (w : World) (path : String) : Except String World :=
  match w.files.lookup path with
  | some _ => .ok { w with files := w.files.filter (fun f => f.1 ≠ path) }
  | none => .error ("ENOENT: no such file or directory, unlink " ++ path)

/-- The value `fs.statSync(path).size`; the call throws when the file is absent. -/
def statSize (w : World) (path : String) : Except String ℕ :=
  match w.files.lookup path with
  | some data => .ok data.length
  | none => .error ("ENOENT: no such file or directory, stat " ++ path)

end World

/-- What the adapters take from their surroundings: the byte order of the
host, the directory `outputDir`, the conversion of a number inside a template
literal, and the two external encoders.  An encoder call yields the world it
leaves behind and, when it throws, the message of the error. -/
structure Env where
  littleEndian : Bool
  outputDir : String
  showNumber : JSNum → String
  execSync : String → World → Option String × World
  sharp : List ℕ → ℕ → ℕ → ℕ → String → World → Option String × World

/-- The call `path.join(dir, name)`. -/
def pathJoin (dir name : String) : String := dir ++ "/" ++ name

/-- The fields of a successful sub-result; `quality` is set by the JPEG
adapter, `targetRatio` by the two others. -/
structure Success where
  compressionTime : ℚ
  compressedSize : ℕ
  compressionRatio : JSNum
  quality : Option ℕ
  targetRatio : Option ℕ
  path : String
deriving DecidableEq

/-- A codec sub-result: the success fields, or `{ error: message }`. -/
inductive SubResult where
  | ok (s : Success)
  | error (message : String)
deriving DecidableEq

/-- The function `compressToJpg`. -/
def compressToJpg (env : Env) (file : String) (rawPixelData : List ℕ)
    (width height bitsAllocated quality : ℕ) (p : WindowParameters) (w : World) :
    SubResult × World :=
  let startTime := w.clock
  let outputPath := pathJoin env.outputDir (file ++ "_q" ++ toString quality ++ ".jpg")
  let inputBuffer := jpgInputBuffer env.littleEndian rawPixelData bitsAllocated p
  match env.sharp inputBuffer width height quality outputPath w with
  | (some message, w1) => (.error message, w1)
  | (none, w1) =>
    let endTime := w1.clock
    match w1.statSize outputPath with
    | .error message => (.error message, w1)
    | .ok compressedSize =>
      let actualRatio := JSNum.div rawPixelData.length compressedSize
      (.ok { compressionTime := endTime - startTime, compressedSize := compressedSize,
             compressionRatio := actualRatio, quality := some quality,
             targetRatio := none, path := outputPath }, w1)

/-- The bytes of `Buffer.from(text, 'ascii')`. -/
def asciiBytes (text : String) : List ℕ := text.toList.map Char.toNat

/-- The buffer `pgxHeader` of `compressToJp2`. -/
def pgxHeader (bitsAllocated width height : ℕ) : List ℕ :=
  asciiBytes ("PG ML + " ++ toString bitsAllocated ++ " " ++ toString width ++ " "
    ++ toString height ++ "\r\n")

/-- The buffer `compressToJp2` writes to the temporary file. -/
def pgxContainer (littleEndian : Bool) (rawPixelData : List ℕ)
    (width height bitsAllocated : ℕ) (p : WindowParameters) : List ℕ :=
  let processedData := applyWindowingToPixelData littleEndian rawPixelData bitsAllocated p
  pgxHeader bitsAllocated width height ++ processedData

/-- The function `compressToJp2`. -/
def compressToJp2 (env : Env) (file rawPixelDataPath : String)
    (width height bitsAllocated targetRatio : ℕ) (p : WindowParameters) (w : World) :
    SubResult × World :=
  let outputPath := pathJoin env.outputDir (file ++ "_ratio" ++ toString targetRatio ++ ".jp2")
  let tempRawPath := pathJoin env.outputDir (file ++ "_temp.pgx")
  match w.readFileSync rawPixelDataPath with
  | .error message => (.error message, w)
  | .ok rawPixelData =>
    let startTime := w.clock
    let w1 := w.writeFileSync tempRawPath
      (pgxContainer env.littleEndian rawPixelData width height bitsAllocated p)
    let command := "opj_compress -i \"" ++ tempRawPath ++ "\" -o \"" ++ outputPath
      ++ "\" -p RLCP -t 1024,1024 -c [32,32] -r " ++ toString targetRatio
    match env.execSync command w1 with
    | (some message, w2) => (.error message, w2)
    | (none, w2) =>
      match w2.unlinkSync tempRawPath with
      | .error message => (.error message, w2)
      | .ok w3 =>
        let endTime := w3.clock
        match w3.statSize outputPath with
        | .error message => (.error message, w3)
        | .ok compressedSize =>
          let actualRatio := JSNum.div rawPixelData.length compressedSize
          (.ok { compressionTime := endTime - startTime, compressedSize := compressedSize,
                 compressionRatio := actualRatio, quality := none,
                 targetRatio := some targetRatio, path := outputPath }, w3)

/-- The function `compressToJph`. -/
def compressToJph (env : Env) (file rawPixelDataPath : String)
    (width height bitsAllocated targetRatio : ℕ) (p : WindowParameters) (w : World) :
    SubResult × World :=
  let outputPath := pathJoin env.outputDir (file ++ "_ratio" ++ toString targetRatio ++ ".jph")
  let tempRawPath := pathJoin env.outputDir (file ++ "_temp.raw")
  match w.readFileSync rawPixelDataPath with
  | .error message => (.error message, w)
  | .ok rawPixelData =>
    let startTime := w.clock
    let processedData :=
      applyWindowingToPixelData env.littleEndian rawPixelData bitsAllocated p
    let w1 := w.writeFileSync tempRawPath processedData
    let command := "ojph_compress -i \"" ++ tempRawPath ++ "\" -o \"" ++ outputPath
      ++ "\" -dims \x7b" ++ toString width ++ "," ++ toString height
      ++ "\x7d -num_comps 1 -bit_depth " ++ toString bitsAllocated
      ++ " -signed false -downsamp \x7b1,1\x7d -qstep "
      ++ env.showNumber (JSNum.div 1 targetRatio)
    match env.execSync command w1 with
    | (some message, w2) => (.error message, w2)
    | (none, w2) =>
      match w2.unlinkSync tempRawPath with
      | .error message => (.error message, w2)
      | .ok w3 =>
        let endTime := w3.clock
        match w3.statSize outputPath with
        | .error message => (.error message, w3)
        | .ok compressedSize =>
          let actualRatio := JSNum.div rawPixelData.length compressedSize
          (.ok { compressionTime := endTime - startTime, compressedSize := compressedSize,
                 compressionRatio := actualRatio, quality := none,
                 targetRatio := some targetRatio, path := outputPath }, w3)

/-! ## The sweep -/

/-- The constant `targetCompressionRatios`. -/
def targetCompressionRatios : List ℕ := [5, 10, 15, 20, 30, 50]

/-- The parsed content of a metadata file `<image>.json`. -/
structure Metadata where
  width : ℕ
  height : ℕ
  bitsAllocated : ℕ
  bitsStored : ℕ
  photometricInterpretation : String
deriving DecidableEq

/-- The directory `rawDir` as `compressImages` reads it: its path, the parsed
metadata of an image (`none` when `<image>.json` does not exist) and the
content of `<image>.bin`. -/
structure RawDir where
  path : String
  metadata : String → Option Metadata
  pixelData : String → List ℕ

/-- One entry of the array `results`. -/
structure ResultRecord where
  filename : String
  width : ℕ
  height : ℕ
  bitDepth : ℕ
  targetCompressionRatio : ℕ
  originalSize : ℕ
  jpeg : SubResult
  jp2 : SubResult
  jph : SubResult
deriving DecidableEq

/-- The three codec adapters as `compressImages` calls them (the window
arguments are left to their defaults), acting on a state `σ`. -/
structure Adapters (σ : Type) where
  jpg : String → List ℕ → ℕ → ℕ → ℕ → ℕ → σ → SubResult × σ
  jp2 : String → String → ℕ → ℕ → ℕ → ℕ → σ → SubResult × σ
  jph : String → String → ℕ → ℕ → ℕ → ℕ → σ → SubResult × σ

/-- The adapters of `compress.js`, acting on the file system and the clock. -/
def codecAdapters (env : Env) : Adapters World :=
  { jpg := fun file rawPixelData width height bitsAllocated quality =>
      compressToJpg env file rawPixelData width height bitsAllocated quality defaultWindow
    jp2 := fun file rawPixelDataPath width height bitsAllocated targetRatio =>
      compressToJp2 env file rawPixelDataPath width height bitsAllocated targetRatio
        defaultWindow
    jph := fun file rawPixelDataPath width height bitsAllocated targetRatio =>
      compressToJph env file rawPixelDataPath width height bitsAllocated targetRatio
        defaultWindow }

/-- The body of the loop over `targetCompressionRatios` in `compressImages`:
the three adapters run in turn and the entry is pushed onto `results`. -/
def compressRatio {σ : Type} (ad : Adapters σ) (dir : RawDir) (file : String)
    (md : Metadata) (acc : List ResultRecord × σ) (ratio : ℕ) : List ResultRecord × σ :=
  let rawPixelDataPath := pathJoin dir.path (file ++ ".bin")
  let rawPixelData := dir.pixelData file
  let jpegQuality := mapCompressionRatioToJpegQuality ratio
  let jpgCompressedResult :=
    ad.jpg file rawPixelData md.width md.height md.bitsAllocated jpegQuality acc.2
  let jp2CompressedResult :=
    ad.jp2 file rawPixelDataPath md.width md.height md.bitsAllocated ratio
      jpgCompressedResult.2
  let jphCompressedResult :=
    ad.jph file rawPixelDataPath md.width md.height md.bitsAllocated ratio
      jp2CompressedResult.2
  (acc.1 ++ [{ filename := file, width := md.width, height := md.height,
               bitDepth := md.bitsAllocated, targetCompressionRatio := ratio,
               originalSize := rawPixelData.length, jpeg := jpgCompressedResult.1,
               jp2 := jp2CompressedResult.1, jph := jphCompressedResult.1 }],
   jphCompressedResult.2)

/-- The body of the loop over `files` in `compressImages`. -/
def compressImage {σ : Type} (ad : Adapters σ) (dir : RawDir)
    (acc : List ResultRecord × σ) (file : String) : List ResultRecord × σ :=
  match dir.metadata file with
  | none => acc
  | some md => targetCompressionRatios.foldl (compressRatio ad dir file md) acc

/-- The loop of `compressImages` over the images found, starting from the
empty array `results`. -/
def compressImages {σ : Type} (ad : Adapters σ) (dir : RawDir) (files : List String)
    (st : σ) : List ResultRecord × σ :=
  files.foldl (compressImage ad dir) ([], st)

/-! ## Statistics -/

/-- The function `average`. -/
def average (arr : List JSNum) : JSNum :=
  if arr.length = 0 then JSNum.fin 0
  else JSNum.divPos (arr.foldl (fun sum val => JSNum.add sum val) (JSNum.fin 0)) arr.length

/-- The arrays collected for one codec (`qualities` is used for JPEG only). -/
structure Samples where
  times : List JSNum
  sizes : List JSNum
  ratios : List JSNum
  qualities : List JSNum
deriving DecidableEq

/-- One entry of `byRatio`. -/
structure RatioSamples where
  jpeg : Samples
  jp2 : Samples
  jph : Samples
deriving DecidableEq

/-- The averages of one codec (`avgQuality` is present for JPEG only). -/
structure CodecStats where
  avgTime : JSNum
  avgSize : JSNum
  avgRatio : JSNum
  avgQuality : Option JSNum
deriving DecidableEq

/-- One entry of `stats`. -/
structure RatioStats where
  jpeg : CodecStats
  jp2 : CodecStats
  jph : CodecStats
deriving DecidableEq

/-- The empty arrays every entry of `byRatio` starts from. -/
def emptySamples : Samples := { times := [], sizes := [], ratios := [], qualities := [] }

/-- The object `byRatio` after the first `forEach`. -/
def initByRatio : ℕ → Option RatioSamples :=
  targetCompressionRatios.foldl
    (fun byRatio ratio => Function.update byRatio ratio
      (some { jpeg := emptySamples, jp2 := emptySamples, jph := emptySamples }))
    (fun _ => none)

/-- The value a property of a sub-result has as a number (`NaN` in a sum when
the property is absent). -/
def optNum (v : Option ℕ) : JSNum :=
  match v with
  | some n => JSNum.fin n
  | none => JSNum.nan

/-- The pushes of one successful sub-result onto the arrays of its codec. -/
def pushSamples (withQuality : Bool) (b : Samples) (s : Success) : Samples :=
  { times := b.times ++ [JSNum.fin s.compressionTime]
    sizes := b.sizes ++ [JSNum.fin s.compressedSize]
    ratios := b.ratios ++ [s.compressionRatio]
    qualities := if withQuality then b.qualities ++ [optNum s.quality] else b.qualities }

/-- One of the three `if` blocks of the second `forEach`: nothing happens for
an error sub-result; otherwise `byRatio[ratio]` is read, which throws a
`TypeError` when `ratio` is not a key of `byRatio`. -/
def collectCodec (sub : SubResult) (ratio : ℕ)
    (push : RatioSamples → Success → RatioSamples) (byRatio : ℕ → Option RatioSamples) :
    Except String (ℕ → Option RatioSamples) :=
  match sub with
  | .error _ => .ok byRatio
  | .ok s =>
    match byRatio ratio with
    | none => .error "TypeError: Cannot read properties of undefined"
    | some b => .ok (Function.update byRatio ratio (some (push b s)))

/-- The body of the second `forEach` of `generateStatistics`. -/
def collectResult (byRatio : ℕ → Option RatioSamples) (result : ResultRecord) :
    Except String (ℕ → Option RatioSamples) := do
  let ratio := result.targetCompressionRatio
  let byRatio ← collectCodec result.jpeg ratio
    (fun b s => { b with jpeg := pushSamples true b.jpeg s }) byRatio
  let byRatio ← collectCodec result.jp2 ratio
    (fun b s => { b with jp2 := pushSamples false b.jp2 s }) byRatio
  collectCodec result.jph ratio
    (fun b s => { b with jph := pushSamples false b.jph s }) byRatio

/-- The averages of one codec. -/
def codecStats (withQuality : Bool) (b : Samples) : CodecStats :=
  { avgTime := average b.times
    avgSize := average b.sizes
    avgRatio := average b.ratios
    avgQuality := if withQuality then some (average b.qualities) else none }

/-- The body of the third `forEach` of `generateStatistics`. -/
def statsStep (byRatio : ℕ → Option RatioSamples) (stats : ℕ → Option RatioStats)
    (ratio : ℕ) : Except String (ℕ → Option RatioStats) :=
  match byRatio ratio with
  | none => .error "TypeError: Cannot read properties of undefined"
  | some b =>
    .ok (Function.update stats ratio
      (some { jpeg := codecStats true b.jpeg, jp2 := codecStats false b.jp2,
              jph := codecStats false b.jph }))

/-- The object `stats` that `generateStatistics` computes from `results` and
writes to `compression_statistics.json`. -/
def generateStatistics (results : List ResultRecord) :
    Except String (ℕ → Option RatioStats) := do
  let byRatio ← results.foldlM collectResult initByRatio
  targetCompressionRatios.foldlM (statsStep byRatio) (fun _ => none)

/-! ## The result list as the specification describes it -/

/-- The fields of a result record that do not come from a codec: filename,
width, height, bitDepth, targetCompressionRatio and originalSize. -/
def ResultRecord.staticFields (r : ResultRecord) : String × ℕ × ℕ × ℕ × ℕ × ℕ :=
  (r.filename, r.width, r.height, r.bitDepth, r.targetCompressionRatio, r.originalSize)

/-- The static fields the specification expects in the result list: nothing
for an image without metadata, otherwise one entry per target ratio of the
sweep, in order. -/
def expectedStaticFields (dir : RawDir) (files : List String) :
    List (String × ℕ × ℕ × ℕ × ℕ × ℕ) :=
  files.flatMap fun file =>
    match dir.metadata file with
    | none => []
    | some md =>
      targetCompressionRatios.map fun ratio =>
        (file, md.width, md.height, md.bitsAllocated, ratio, (dir.pixelData file).length)

/-- Adapters that are functions of their arguments alone: each returns its
sub-result and leaves the state untouched. -/
def pureAdapters (jpg : String → List ℕ → ℕ → ℕ → ℕ → ℕ → SubResult)
    (jp2 jph : String → String → ℕ → ℕ → ℕ → ℕ → SubResult) : Adapters Unit :=
  { jpg := fun file raw width height bits quality st =>
      (jpg file raw width height bits quality, st)
    jp2 := fun file path width height bits targetRatio st =>
      (jp2 file path width height bits targetRatio, st)
    jph := fun file path width height bits targetRatio st =>
      (jph file path width height bits targetRatio, st) }

/-- The result list the specification expects for adapters that are functions
of their arguments: nothing for an image without metadata, otherwise one full
record per target ratio of the sweep, in order. -/
def expectedRecords (jpg : String → List ℕ → ℕ → ℕ → ℕ → ℕ → SubResult)
    (jp2 jph : String → String → ℕ → ℕ → ℕ → ℕ → SubResult) (dir : RawDir)
    (files : List String) : List ResultRecord :=
  files.flatMap fun file =>
    match dir.metadata file with
    | none => []
    | some md =>
      targetCompressionRatios.map fun ratio =>
        { filename := file, width := md.width, height := md.height,
          bitDepth := md.bitsAllocated, targetCompressionRatio := ratio,
          originalSize := (dir.pixelData file).length,
          jpeg := jpg file (dir.pixelData file) md.width md.height md.bitsAllocated
            (mapCompressionRatioToJpegQuality ratio),
          jp2 := jp2 file (pathJoin dir.path (file ++ ".bin")) md.width md.height
            md.bitsAllocated ratio,
          jph := jph file (pathJoin dir.path (file ++ ".bin")) md.width md.height
            md.bitsAllocated ratio }

/-- A record whose three sub-results are what the adapters returned when
called, in some state, with the arguments `compressImages` passes for the
image and target ratio of the record. -/
def fromAdapters {σ : Type} (ad : Adapters σ) (dir : RawDir) (r : ResultRecord) : Prop :=
  ∃ (md : Metadata) (s1 s2 s3 : σ),
    dir.metadata r.filename = some md
      ∧ r.jpeg = (ad.jpg r.filename (dir.pixelData r.filename) md.width md.height
          md.bitsAllocated (mapCompressionRatioToJpegQuality r.targetCompressionRatio) s1).1
      ∧ r.jp2 = (ad.jp2 r.filename (pathJoin dir.path (r.filename ++ ".bin")) md.width
          md.height md.bitsAllocated r.targetCompressionRatio s2).1
      ∧ r.jph = (ad.jph r.filename (pathJoin dir.path (r.filename ++ ".bin")) md.width
          md.height md.bitsAllocated r.targetCompressionRatio s3).1

/-! ## The statistics as the specification describes them -/

/-- The arithmetic mean of the specification: the sum of the values divided by
their number, and 0 for no value. -/
def arithmeticMean (vs : List JSNum) : JSNum :=
  match vs with
  | [] => JSNum.fin 0
  | v :: rest => JSNum.divPos (List.foldr JSNum.add (JSNum.fin 0) (v :: rest)) (rest.length + 1)

/-- The successful sub-results of one codec among the records whose target
ratio is `r`, in the order of the records. -/
def successes (codec : ResultRecord → SubResult) (results : List ResultRecord) (r : ℕ) :
    List Success :=
  results.filterMap fun result =>
    if result.targetCompressionRatio = r then
      match codec result with
      | .ok s => some s
      | .error _ => none
    else none

/-- The averages the specification expects for one codec from its successful
sub-results. -/
def expectedCodecStats (withQuality : Bool) (succ : List Success) : CodecStats :=
  { avgTime := arithmeticMean (succ.map fun s => JSNum.fin s.compressionTime)
    avgSize := arithmeticMean (succ.map fun s => JSNum.fin s.compressedSize)
    avgRatio := arithmeticMean (succ.map fun s => s.compressionRatio)
    avgQuality :=
      if withQuality then some (arithmeticMean (succ.map fun s => optNum s.quality))
      else none }

/-- The arrays of one codec after the pushes of a list of successful
sub-results. -/
def appendSamples (withQuality : Bool) (b : Samples) (succ : List Success) : Samples :=
  { times := b.times ++ succ.map fun s => JSNum.fin s.compressionTime
    sizes := b.sizes ++ succ.map fun s => JSNum.fin s.compressedSize
    ratios := b.ratios ++ succ.map fun s => s.compressionRatio
    qualities :=
      if withQuality then b.qualities ++ succ.map fun s => optNum s.quality
      else b.qualities }

/-- The arrays of one codec after one sub-result: pushed onto for a success,
unchanged for an error. -/
def pushCodec (withQuality : Bool) (b : Samples) (sub : SubResult) : Samples :=
  match sub with
  | .ok s => pushSamples withQuality b s
  | .error _ => b

/-- The entry of `byRatio` after the three `if` blocks for one record. -/
def pushRecord (b : RatioSamples) (result : ResultRecord) : RatioSamples :=
  { jpeg := pushCodec true b.jpeg result.jpeg
    jp2 := pushCodec false b.jp2 result.jp2
    jph := pushCodec false b.jph result.jph }

/-- The entry of `byRatio` for the key `k` after all records: the successful
sub-results of each codec appended to the arrays it started with. -/
def collected (results : List ResultRecord) (k : ℕ) (b : RatioSamples) : RatioSamples :=
  { jpeg := appendSamples true b.jpeg (successes (fun r => r.jpeg) results k)
    jp2 := appendSamples false b.jp2 (successes (fun r => r.jp2) results k)
    jph := appendSamples false b.jph (successes (fun r => r.jph) results k) }

/-- The entry of `stats` computed from an entry of `byRatio`. -/
def ratioStats (b : RatioSamples) : RatioStats :=
  { jpeg := codecStats true b.jpeg, jp2 := codecStats false b.jp2,
    jph := codecStats false b.jph }

/-- The entry of `stats` the specification expects for the target ratio `r`:
for each codec the means over the records whose target ratio is `r` and whose
sub-result for that codec has no error. -/
def expectedStats (results : List ResultRecord) (r : ℕ) : RatioStats :=
  { jpeg := expectedCodecStats true (successes (fun result => result.jpeg) results r)
    jp2 := expectedCodecStats false (successes (fun result => result.jp2) results r)
    jph := expectedCodecStats false (successes (fun result => result.jph) results r) }

/-! ## Concrete inputs -/

/-- A host on which the external encoders cannot run: little-endian, output
directory `compressed`, and every `execSync` call throws, leaving the files
untouched. -/
def failingEncoderEnv : Env :=
  { littleEndian := true
    outputDir := "compressed"
    showNumber := fun _ => "0.2"
    execSync := fun _ w => (some "Command failed", w)
    sharp := fun _ _ _ _ _ w => (some "Input file is missing", w) }

/-- A world holding one raw image `raw/img.bin` of a single 16-bit sample,
1064 in little-endian byte order. -/
def oneSampleWorld : World :=
  { files := [("raw/img.bin", [40, 4])], clock := 0 }

/-- Two result records of one 4x4 image: at target ratio 5 the JPEG and JPH
adapters succeeded and the JP2 adapter failed, at target ratio 10 all three
failed. -/
def sampleResults : List ResultRecord :=
  [{ filename := "img", width := 4, height := 4, bitDepth := 16,
     targetCompressionRatio := 5, originalSize := 32,
     jpeg := .ok { compressionTime := 12, compressedSize := 8,
                   compressionRatio := JSNum.fin 4, quality := some 80,
                   targetRatio := none, path := "compressed/img_q80.jpg" },
     jp2 := .error "Command failed",
     jph := .ok { compressionTime := 3, compressedSize := 16,
                  compressionRatio := JSNum.fin 2, quality := none,
                  targetRatio := some 5, path := "compressed/img_ratio5.jph" } },
   { filename := "img", width := 4, height := 4, bitDepth := 16,
     targetCompressionRatio := 10, originalSize := 32,
     jpeg := .error "Input file is missing",
     jp2 := .error "Command failed",
     jph := .error "Command failed" }]

/-- A host on which the encoders run: little-endian, output directory
`compressed`; every encoder call takes 5 ms and leaves a 4-byte artifact, the
JPEG encoder at the path it is given, the external encoders at the two output
paths of image `img` at target ratio 5. -/
def workingEncoderEnv : Env :=
  { littleEndian := true
    outputDir := "compressed"
    showNumber := fun _ => "0.2"
    execSync := fun _ w =>
      (none, { ((w.writeFileSync "compressed/img_ratio5.jp2" [1, 2, 3, 4]).writeFileSync
                  "compressed/img_ratio5.jph" [1, 2, 3, 4]) with clock := w.clock + 5 })
    sharp := fun _ _ _ _ outputPath w =>
      (none, { (w.writeFileSync outputPath [1, 2, 3, 4]) with clock := w.clock + 5 }) }

/-- The sub-result expected from `compressToJpg` for the one-sample image at
quality 80: 2 raw bytes over 4 compressed bytes. -/
def sampleJpgSuccess : Success :=
  { compressionTime := 5, compressedSize := 4, compressionRatio := JSNum.fin (1 / 2),
    quality := some 80, targetRatio := none, path := "compressed/img_q80.jpg" }

/-- The sub-result expected from `compressToJp2` for the one-sample image at
target ratio 5. -/
def sampleJp2Success : Success :=
  { compressionTime := 5, compressedSize := 4, compressionRatio := JSNum.fin (1 / 2),
    quality := none, targetRatio := some 5, path := "compressed/img_ratio5.jp2" }

/-- The sub-result expected from `compressToJph` for the one-sample image at
target ratio 5. -/
def sampleJphSuccess : Success :=
  { compressionTime := 5, compressedSize := 4, compressionRatio := JSNum.fin (1 / 2),
    quality := none, targetRatio := some 5, path := "compressed/img_ratio5.jph" }

/-- The raw files of the images `files` hold, in the world `w`, the bytes
`compressImages` read from them: `<rawDir>/<image>.bin` is readable and its
content is `dir.pixelData image`. -/
def rawFilesAgree (dir : RawDir) (files : List String) (w : World) : Prop :=
  ∀ file ∈ files,
    w.readFileSync (pathJoin dir.path (file ++ ".bin")) = .ok (dir.pixelData file)

/-- A record whose three sub-results are what the adapters returned when
called with the arguments `compressImages` passes for the image and target
ratio of the record, each in a state that satisfies `inv`. -/
def fromAdaptersIn {σ : Type} (inv : σ → Prop) (ad : Adapters σ) (dir : RawDir)
    (r : ResultRecord) : Prop :=
  ∃ (md : Metadata) (s1 s2 s3 : σ),
    inv s1 ∧ inv s2 ∧ inv s3 ∧ dir.metadata r.filename = some md
      ∧ r.jpeg = (ad.jpg r.filename (dir.pixelData r.filename) md.width md.height
          md.bitsAllocated (mapCompressionRatioToJpegQuality r.targetCompressionRatio) s1).1
      ∧ r.jp2 = (ad.jp2 r.filename (pathJoin dir.path (r.filename ++ ".bin")) md.width
          md.height md.bitsAllocated r.targetCompressionRatio s2).1
      ∧ r.jph = (ad.jph r.filename (pathJoin dir.path (r.filename ++ ".bin")) md.width
          md.height md.bitsAllocated r.targetCompressionRatio s3).1

/-- A raw directory `raw` holding the one-sample image `img` (bytes 40, 4)
with its metadata: width 1, height 1, 16 bits. -/
def sampleRawDir : RawDir :=
  { path := "raw"
    metadata := fun file =>
      if file = "img" then
        some { width := 1, height := 1, bitsAllocated := 16, bitsStored := 16,
               photometricInterpretation := "MONOCHROME2" }
      else none
    pixelData := fun file => if file = "img" then [40, 4] else [] }

/-! ## Lemmas on numbers and windowing -/

theorem JSNum.div_of_ne {a b : ℚ} (hb : b ≠ 0) : JSNum.div a b = JSNum.fin (a / b) := by
  simp [JSNum.div, hb]

theorem JSNum.toUint_intCast (bits : ℕ) (n : ℤ) (h0 : 0 ≤ n) (h1 : n < 2 ^ bits) :
    JSNum.toUint bits (JSNum.fin (n : ℚ)) = n.toNat := by
  have hq : (0 : ℚ) ≤ (n : ℚ) := by exact_mod_cast h0
  simp only [JSNum.toUint, hq, if_true, Int.floor_intCast]
  rw [Int.emod_eq_of_lt h0 h1]

/-- The scaled position of `hu` inside the window. -/
theorem scaled_nonpos {p : WindowParameters} {s : ℕ} (h : minHU p < maxHU p)
    (hlo : hu p s ≤ minHU p) : (hu p s - minHU p) / (maxHU p - minHU p) ≤ 0 :=
  div_nonpos_of_nonpos_of_nonneg (by linarith) (by linarith)

theorem scaled_one_le {p : WindowParameters} {s : ℕ} (h : minHU p < maxHU p)
    (hhi : maxHU p ≤ hu p s) : 1 ≤ (hu p s - minHU p) / (maxHU p - minHU p) := by
  rw [one_le_div (by linarith)]
  linarith

theorem scaled_pos {p : WindowParameters} {s : ℕ} (h : minHU p < maxHU p)
    (hlo : minHU p < hu p s) : 0 < (hu p s - minHU p) / (maxHU p - minHU p) :=
  div_pos (by linarith) (by linarith)

theorem scaled_lt_one {p : WindowParameters} {s : ℕ} (h : minHU p < maxHU p)
    (hhi : hu p s < maxHU p) : (hu p s - minHU p) / (maxHU p - minHU p) < 1 := by
  rw [div_lt_one (by linarith)]
  linarith

/-- Rounding a scaled value of `[0, 1]` stays inside `[0, k]`. -/
theorem round_scaled_bounds {x : ℚ} {k : ℤ} (hk : 0 ≤ k) (h0 : 0 ≤ x) (h1 : x ≤ 1) :
    0 ≤ ⌊x * k + 1 / 2⌋ ∧ ⌊x * k + 1 / 2⌋ ≤ k := by
  have hkq : (0 : ℚ) ≤ (k : ℚ) := by exact_mod_cast hk
  constructor
  · rw [Int.le_floor]
    have : 0 ≤ x * k := mul_nonneg h0 hkq
    push_cast
    linarith
  · have hlt : ⌊x * k + 1 / 2⌋ < k + 1 := by
      rw [Int.floor_lt]
      have : x * k ≤ 1 * k := mul_le_mul_of_nonneg_right h1 hkq
      push_cast
      linarith
    omega

theorem round_scaled_nonpos {x : ℚ} {k : ℤ} (hk : 0 ≤ k) (h0 : x ≤ 0) :
    ⌊x * k + 1 / 2⌋ ≤ 0 := by
  have hkq : (0 : ℚ) ≤ (k : ℚ) := by exact_mod_cast hk
  have hlt : ⌊x * k + 1 / 2⌋ < 0 + 1 := by
    rw [Int.floor_lt]
    have : x * k ≤ 0 := mul_nonpos_of_nonpos_of_nonneg h0 hkq
    push_cast
    linarith
  omega

theorem round_scaled_ge {x : ℚ} {k : ℤ} (hk : 0 ≤ k) (h1 : 1 ≤ x) :
    k ≤ ⌊x * k + 1 / 2⌋ := by
  have hkq : (0 : ℚ) ≤ (k : ℚ) := by exact_mod_cast hk
  rw [Int.le_floor]
  have : 1 * (k : ℚ) ≤ x * k := mul_le_mul_of_nonneg_right h1 hkq
  linarith

/-- The 16-bit value follows the rule of the specification with `maxOutput = 65535`. -/
theorem windowValue16_eq_piecewise (p : WindowParameters) (s : ℕ) :
    windowValue16 p s = JSNum.fin (piecewiseWindow 65535 p s) := by
  unfold windowValue16 piecewiseWindow
  by_cases hlo : hu p s ≤ minHU p
  · simp [hlo]
  · by_cases hhi : hu p s ≥ maxHU p
    · simp [hlo, hhi]
    · have hne : maxHU p - minHU p ≠ 0 := by
        push_neg at hlo hhi
        linarith
      simp [hlo, hhi, JSNum.div_of_ne hne, JSNum.mulPos, JSNum.round]

/-- The 8-bit value follows the rule of the specification with `maxOutput = 255`. -/
theorem windowValue8_eq_piecewise (p : WindowParameters) (s : ℕ) (h : minHU p < maxHU p) :
    windowValue8 p s = JSNum.fin (piecewiseWindow 255 p s) := by
  have hne : maxHU p - minHU p ≠ 0 := by linarith
  unfold windowValue8 piecewiseWindow
  simp only [JSNum.div_of_ne hne, JSNum.mulPos, JSNum.round, JSNum.minWith, JSNum.maxWith]
  congr 1
  by_cases hlo : hu p s ≤ minHU p
  · have := round_scaled_nonpos (k := 255) (by norm_num) (scaled_nonpos h hlo)
    have hq : ((⌊(hu p s - minHU p) / (maxHU p - minHU p) * ((255 : ℤ) : ℚ) + 1 / 2⌋ : ℤ) : ℚ) ≤ 0 := by
      exact_mod_cast this
    simp only [hlo, if_true]
    push_cast at hq ⊢
    rw [min_eq_right (by linarith), max_eq_left hq]
  · by_cases hhi : hu p s ≥ maxHU p
    · have := round_scaled_ge (k := 255) (by norm_num) (scaled_one_le h hhi)
      have hq : (255 : ℚ) ≤ ((⌊(hu p s - minHU p) / (maxHU p - minHU p) * ((255 : ℤ) : ℚ) + 1 / 2⌋ : ℤ) : ℚ) := by
        exact_mod_cast this
      simp only [hlo, hhi, if_true, if_false]
      push_cast at hq ⊢
      rw [min_eq_left hq, max_eq_right (by norm_num)]
    · push_neg at hlo hhi
      have := round_scaled_bounds (k := 255) (by norm_num) (scaled_pos h hlo).le
        (scaled_lt_one h hhi).le
      have hq0 : (0 : ℚ) ≤ ((⌊(hu p s - minHU p) / (maxHU p - minHU p) * ((255 : ℤ) : ℚ) + 1 / 2⌋ : ℤ) : ℚ) := by
        exact_mod_cast this.1
      have hq1 : ((⌊(hu p s - minHU p) / (maxHU p - minHU p) * ((255 : ℤ) : ℚ) + 1 / 2⌋ : ℤ) : ℚ) ≤ 255 := by
        exact_mod_cast this.2
      simp only [not_le.mpr hlo, ge_iff_le, not_le.mpr hhi, if_false]
      push_cast at hq0 hq1 ⊢
      rw [min_eq_right hq1, max_eq_right hq0]

/-- The rule of the specification yields an integer of `[0, maxOutput]`. -/
theorem piecewiseWindow_bounds (k : ℤ) (hk : 0 ≤ k) (p : WindowParameters) (s : ℕ)
    (h : minHU p < maxHU p) : 0 ≤ piecewiseWindow k p s ∧ piecewiseWindow k p s ≤ k := by
  unfold piecewiseWindow
  by_cases hlo : hu p s ≤ minHU p
  · simp [hlo, hk]
  · by_cases hhi : hu p s ≥ maxHU p
    · simp [hlo, hhi, hk]
    · simp only [hlo, hhi, if_false]
      push_neg at hlo hhi
      exact round_scaled_bounds hk (scaled_pos h hlo).le (scaled_lt_one h hhi).le

theorem windowSample16_eq (p : WindowParameters) (s : ℕ) (h : minHU p < maxHU p) :
    windowSample16 p s = (piecewiseWindow 65535 p s).toNat := by
  have hb := piecewiseWindow_bounds 65535 (by norm_num) p s h
  unfold windowSample16
  rw [windowValue16_eq_piecewise]
  exact JSNum.toUint_intCast 16 _ hb.1 (by have := hb.2; norm_num; omega)

theorem windowSample8_eq (p : WindowParameters) (s : ℕ) (h : minHU p < maxHU p) :
    windowSample8 p s = (piecewiseWindow 255 p s).toNat := by
  have hb := piecewiseWindow_bounds 255 (by norm_num) p s h
  unfold windowSample8
  rw [windowValue8_eq_piecewise p s h]
  exact JSNum.toUint_intCast 8 _ hb.1 (by have := hb.2; norm_num; omega)

theorem piecewiseWindow_of_le (k : ℤ) (p : WindowParameters) (s : ℕ)
    (hlo : hu p s ≤ minHU p) : piecewiseWindow k p s = 0 := by
  simp [piecewiseWindow, hlo]

theorem piecewiseWindow_of_ge (k : ℤ) (p : WindowParameters) (s : ℕ)
    (h : minHU p < maxHU p) (hhi : hu p s ≥ maxHU p) : piecewiseWindow k p s = k := by
  have hlo : ¬ hu p s ≤ minHU p := by
    have : maxHU p ≤ hu p s := hhi
    intro hle
    linarith
  simp [piecewiseWindow, hlo, hhi]

theorem defaultWindow_lt : minHU defaultWindow < maxHU defaultWindow := by
  norm_num [minHU, maxHU, defaultWindow]

/-! ## Lemmas on sample buffers -/

theorem readUint16_length (le : Bool) (raw : List ℕ) :
    (readUint16 le raw).length = raw.length / 2 := by
  induction raw using readUint16.induct le with
  | case1 b0 b1 rest ih =>
    simp only [readUint16, List.length_cons, ih]
    omega
  | case2 raw hne =>
    match raw, hne with
    | [], _ => simp [readUint16]
    | [b], _ => simp [readUint16]
    | b0 :: b1 :: rest, hne => exact absurd rfl (hne b0 b1 rest)

theorem writeUint16_length (le : Bool) (samples : List ℕ) :
    (writeUint16 le samples).length = 2 * samples.length := by
  induction samples with
  | nil => simp [writeUint16]
  | cons s rest ih =>
    cases le <;> simp [writeUint16, ih] <;> omega

theorem applyWindowingToPixelData_length (le : Bool) (raw : List ℕ) (bits : ℕ)
    (p : WindowParameters) :
    (applyWindowingToPixelData le raw bits p).length = 2 * (raw.length / 2) := by
  simp [applyWindowingToPixelData, writeUint16_length, readUint16_length]

theorem readUint16_replicate_zero (le : Bool) (n : ℕ) :
    readUint16 le (List.replicate (2 * n) 0) = List.replicate n 0 := by
  induction n with
  | zero => simp [readUint16]
  | succ n ih =>
    have : 2 * (n + 1) = (2 * n + 1) + 1 := by ring
    rw [this, List.replicate_succ, List.replicate_succ, readUint16, ih, List.replicate_succ]
    cases le <;> simp

theorem writeUint16_replicate_zero (le : Bool) (n : ℕ) :
    writeUint16 le (List.replicate n 0) = List.replicate (2 * n) 0 := by
  induction n with
  | zero => simp [writeUint16]
  | succ n ih =>
    have : 2 * (n + 1) = (2 * n + 1) + 1 := by ring
    rw [this, List.replicate_succ, writeUint16, ih, List.replicate_succ, List.replicate_succ]
    cases le <;> simp

/-! ## Ratio to quality mapping: the table -/

/-- C1: for every numeric target ratio `r`, `mapCompressionRatioToJpegQuality r`
is the first matching row of the table read top-down (10 for `r ≥ 50`, 25 for
`30 ≤ r < 50`, 40 for `20 ≤ r < 30`, 60 for `10 ≤ r < 20`, 80 for `5 ≤ r < 10`,
90 otherwise); it is 80 at 5, 25 at 49, 10 at 50 and 90 at 1. -/
theorem mapCompressionRatioToJpegQuality_table (r : ℚ) :
    mapCompressionRatioToJpegQuality r =
        (if 50 ≤ r then 10
         else if 30 ≤ r ∧ r < 50 then 25
         else if 20 ≤ r ∧ r < 30 then 40
         else if 10 ≤ r ∧ r < 20 then 60
         else if 5 ≤ r ∧ r < 10 then 80
         else 90)
      ∧ mapCompressionRatioToJpegQuality 5 = 80
      ∧ mapCompressionRatioToJpegQuality 49 = 25
      ∧ mapCompressionRatioToJpegQuality 50 = 10
      ∧ mapCompressionRatioToJpegQuality 1 = 90 := by
  refine ⟨?_, ?_, ?_, ?_, ?_⟩
  · unfold mapCompressionRatioToJpegQuality
    by_cases h50 : 50 ≤ r
    · simp [h50]
    · by_cases h30 : 30 ≤ r
      · simp [h50, h30, not_le.mp h50]
      · by_cases h20 : 20 ≤ r
        · simp [h50, h30, h20, not_le.mp h30]
        · by_cases h10 : 10 ≤ r
          · simp [h50, h30, h20, h10, not_le.mp h20]
          · by_cases h5 : 5 ≤ r
            · simp [h50, h30, h20, h10, h5, not_le.mp h10]
            · simp [h50, h30, h20, h10, h5]
  all_goals norm_num [mapCompressionRatioToJpegQuality]

/-! ## Windowing: clamping, range, degenerate width, monotonicity, refinement -/

/-- C2: for every sample and every window with `maxHU > minHU`, both windowing
variants store exactly 0 when `hu ≤ minHU` and exactly their maximum (65535
for `applyWindowingToPixelData`, 255 for the loop of `compressToJpg`) when
`hu ≥ maxHU`; a 4x4 buffer of all-zero samples windowed with the default
arguments gives sixteen output samples equal to 0 in both variants. -/
theorem windowing_clamps (p : WindowParameters) (s : ℕ) (h : minHU p < maxHU p) :
    (hu p s ≤ minHU p → windowSample16 p s = 0 ∧ windowSample8 p s = 0)
      ∧ (hu p s ≥ maxHU p → windowSample16 p s = 65535 ∧ windowSample8 p s = 255)
      ∧ (∀ le : Bool,
          hu defaultWindow 0 = -1024 ∧ minHU defaultWindow = -135
            ∧ (readUint16 le (List.replicate 32 0)).map (windowSample16 defaultWindow)
                = List.replicate 16 0
            ∧ applyWindowingToPixelData le (List.replicate 32 0) 16 defaultWindow
                = List.replicate 32 0
            ∧ jpgInputBuffer le (List.replicate 32 0) 16 defaultWindow
                = List.replicate 16 0) := by
  refine ⟨?_, ?_, ?_⟩
  · intro hlo
    rw [windowSample16_eq p s h, windowSample8_eq p s h, piecewiseWindow_of_le _ p s hlo,
      piecewiseWindow_of_le _ p s hlo]
    exact ⟨rfl, rfl⟩
  · intro hhi
    rw [windowSample16_eq p s h, windowSample8_eq p s h, piecewiseWindow_of_ge _ p s h hhi,
      piecewiseWindow_of_ge _ p s h hhi]
    exact ⟨rfl, rfl⟩
  · intro le
    have hlo : hu defaultWindow 0 ≤ minHU defaultWindow := by
      norm_num [hu, minHU, defaultWindow]
    have h16 : windowSample16 defaultWindow 0 = 0 := by
      rw [windowSample16_eq _ _ defaultWindow_lt, piecewiseWindow_of_le _ _ _ hlo]
      rfl
    have h8 : windowSample8 defaultWindow 0 = 0 := by
      rw [windowSample8_eq _ _ defaultWindow_lt, piecewiseWindow_of_le _ _ _ hlo]
      rfl
    refine ⟨by norm_num [hu, defaultWindow], by norm_num [minHU, defaultWindow], ?_, ?_, ?_⟩
    · have := readUint16_replicate_zero le 16
      rw [show (32 : ℕ) = 2 * 16 from rfl, this, List.map_replicate, h16]
    · have := readUint16_replicate_zero le 16
      simp only [applyWindowingToPixelData]
      rw [show (32 : ℕ) = 2 * 16 from rfl, this, List.map_replicate, h16,
        writeUint16_replicate_zero]
    · have := readUint16_replicate_zero le 16
      simp only [jpgInputBuffer]
      rw [show (32 : ℕ) = 2 * 16 from rfl, this, List.map_replicate, h8]
      simp

/-- Witness of C2 at the default window: sample 0 lies below the window and
sample 65535 above it. -/
theorem windowing_clamps_witness :
    minHU defaultWindow < maxHU defaultWindow
      ∧ (windowSample16 defaultWindow 0 = 0 ∧ windowSample8 defaultWindow 0 = 0)
      ∧ (windowSample16 defaultWindow 65535 = 65535
          ∧ windowSample8 defaultWindow 65535 = 255) :=
  ⟨defaultWindow_lt,
   (windowing_clamps defaultWindow 0 defaultWindow_lt).1
     (by norm_num [hu, minHU, defaultWindow]),
   (windowing_clamps defaultWindow 65535 defaultWindow_lt).2.1
     (by norm_num [hu, maxHU, defaultWindow])⟩

/-- C3: for every sample and every window with `maxHU > minHU`, the number each
windowing variant computes for the output sample is an integer of
`[0, 65535]` (16-bit helper) or `[0, 255]` (8-bit loop), and storing it in the
typed array keeps it unchanged. -/
theorem windowing_range (p : WindowParameters) (s : ℕ) (h : minHU p < maxHU p) :
    (∃ n : ℕ, n ≤ 65535 ∧ windowValue16 p s = JSNum.fin n ∧ windowSample16 p s = n)
      ∧ (∃ n : ℕ, n ≤ 255 ∧ windowValue8 p s = JSNum.fin n ∧ windowSample8 p s = n) := by
  have hb16 := piecewiseWindow_bounds 65535 (by norm_num) p s h
  have hb8 := piecewiseWindow_bounds 255 (by norm_num) p s h
  constructor
  · refine ⟨(piecewiseWindow 65535 p s).toNat, by omega, ?_, windowSample16_eq p s h⟩
    rw [windowValue16_eq_piecewise]
    congr 1
    have : ((piecewiseWindow 65535 p s).toNat : ℤ) = piecewiseWindow 65535 p s :=
      Int.toNat_of_nonneg hb16.1
    exact_mod_cast this.symm
  · refine ⟨(piecewiseWindow 255 p s).toNat, by omega, ?_, windowSample8_eq p s h⟩
    rw [windowValue8_eq_piecewise p s h]
    congr 1
    have : ((piecewiseWindow 255 p s).toNat : ℤ) = piecewiseWindow 255 p s :=
      Int.toNat_of_nonneg hb8.1
    exact_mod_cast this.symm

/-- Witness of C3: the default window at the sample 1064, whose `hu` is the
window centre. -/
theorem windowing_range_witness :
    minHU defaultWindow < maxHU defaultWindow
      ∧ (∃ n : ℕ, n ≤ 65535 ∧ windowValue16 defaultWindow 1064 = JSNum.fin n
          ∧ windowSample16 defaultWindow 1064 = n)
      ∧ (∃ n : ℕ, n ≤ 255 ∧ windowValue8 defaultWindow 1064 = JSNum.fin n
          ∧ windowSample8 defaultWindow 1064 = n) :=
  ⟨defaultWindow_lt, windowing_range defaultWindow 1064 defaultWindow_lt⟩

/-- C4 (as stated, refuted): with `windowWidth = 0` neither windowing variant
fails; on the two samples 0 and 1 with slope 1, intercept 0 and centre 0 the
16-bit helper returns the buffer of the samples 0 and 65535 and the 8-bit loop
the bytes 0 and 255. -/
theorem windowing_zero_width_returns :
    applyWindowingToPixelData true [0, 0, 1, 0] 16
        { rescaleSlope := 1, rescaleIntercept := 0, windowCenter := 0, windowWidth := 0 }
        = [0, 0, 255, 255]
      ∧ jpgInputBuffer true [0, 0, 1, 0] 16
        { rescaleSlope := 1, rescaleIntercept := 0, windowCenter := 0, windowWidth := 0 }
        = [0, 255] := by
  constructor
  · norm_num [applyWindowingToPixelData, readUint16, writeUint16, windowSample16,
      windowValue16, hu, minHU, maxHU, JSNum.toUint]
    exact ⟨rfl, rfl⟩
  · simp [jpgInputBuffer, readUint16, windowSample8, windowValue8, hu, minHU, maxHU,
      JSNum.div, JSNum.mulPos, JSNum.round, JSNum.minWith, JSNum.maxWith, JSNum.toUint]

/-- C4 (amended): with `windowWidth = 0` the windowing raises no error and
returns one output sample per input sample: `applyWindowingToPixelData` stores
0 when `hu ≤ windowCenter` and 65535 otherwise, the 8-bit loop of
`compressToJpg` stores 0 when `hu ≤ windowCenter` and 255 otherwise. -/
theorem windowing_zero_width (le : Bool) (raw : List ℕ) (bits : ℕ) (p : WindowParameters)
    (h : p.windowWidth = 0) :
    applyWindowingToPixelData le raw bits p
        = writeUint16 le ((readUint16 le raw).map
            (fun s => if hu p s ≤ p.windowCenter then 0 else 65535))
      ∧ (applyWindowingToPixelData le raw bits p).length = 2 * (raw.length / 2)
      ∧ (8 < bits → jpgInputBuffer le raw bits p
          = (readUint16 le raw).map (fun s => if hu p s ≤ p.windowCenter then 0 else 255)) := by
  have hmin : minHU p = p.windowCenter := by simp [minHU, h]
  have hmax : maxHU p = p.windowCenter := by simp [maxHU, h]
  have h16 : windowSample16 p = fun s => if hu p s ≤ p.windowCenter then 0 else 65535 := by
    funext s
    unfold windowSample16 windowValue16
    rw [hmin, hmax]
    by_cases hlo : hu p s ≤ p.windowCenter
    · simp [hlo, JSNum.toUint]
    · have hhi : hu p s ≥ p.windowCenter := le_of_lt (not_le.mp hlo)
      simp only [hlo, hhi, if_true, if_false]
      have := JSNum.toUint_intCast 16 65535 (by norm_num) (by norm_num)
      simpa using this
  have h8 : windowSample8 p = fun s => if hu p s ≤ p.windowCenter then 0 else 255 := by
    funext s
    unfold windowSample8 windowValue8
    rw [hmin, hmax]
    by_cases hlo : hu p s ≤ p.windowCenter
    · rcases lt_or_eq_of_le hlo with hlt | heq
      · have hne : hu p s - p.windowCenter ≠ 0 := by linarith
        have hnp : ¬ 0 < hu p s - p.windowCenter := by linarith
        simp [hlo, JSNum.div, hne, hnp, JSNum.mulPos, JSNum.round, JSNum.minWith,
          JSNum.maxWith, JSNum.toUint]
      · simp [heq, JSNum.div, JSNum.mulPos, JSNum.round, JSNum.minWith, JSNum.maxWith,
          JSNum.toUint]
    · have hpos : 0 < hu p s - p.windowCenter := by linarith [not_le.mp hlo]
      have hne : hu p s - p.windowCenter ≠ 0 := ne_of_gt hpos
      simp only [hlo, if_false, sub_self, JSNum.div, hne, hpos, if_true, JSNum.mulPos,
        JSNum.round, JSNum.minWith, JSNum.maxWith]
      have := JSNum.toUint_intCast 8 255 (by norm_num) (by norm_num)
      simpa using this
  refine ⟨?_, applyWindowingToPixelData_length le raw bits p, ?_⟩
  · simp only [applyWindowingToPixelData, h16]
  · intro hb
    simp only [jpgInputBuffer, hb, gt_iff_lt, if_true, h8]

/-- Witness of the amended C4: two samples, 0 (`hu` at the centre) and 1
(`hu` above it), with slope 1, intercept 0, centre 0 and width 0. -/
theorem windowing_zero_width_witness :
    applyWindowingToPixelData true [0, 0, 1, 0] 16
        { rescaleSlope := 1, rescaleIntercept := 0, windowCenter := 0, windowWidth := 0 }
        = writeUint16 true ((readUint16 true [0, 0, 1, 0]).map
            (fun s => if hu { rescaleSlope := 1, rescaleIntercept := 0, windowCenter := 0,
                              windowWidth := 0 } s ≤ 0 then 0 else 65535))
      ∧ (applyWindowingToPixelData true [0, 0, 1, 0] 16
          { rescaleSlope := 1, rescaleIntercept := 0, windowCenter := 0,
            windowWidth := 0 }).length = 2 * (4 / 2)
      ∧ ((8 : ℕ) < 16 → jpgInputBuffer true [0, 0, 1, 0] 16
          { rescaleSlope := 1, rescaleIntercept := 0, windowCenter := 0, windowWidth := 0 }
          = (readUint16 true [0, 0, 1, 0]).map
              (fun s => if hu { rescaleSlope := 1, rescaleIntercept := 0, windowCenter := 0,
                                windowWidth := 0 } s ≤ 0 then 0 else 255)) :=
  windowing_zero_width true [0, 0, 1, 0] 16
    { rescaleSlope := 1, rescaleIntercept := 0, windowCenter := 0, windowWidth := 0 } rfl

theorem piecewiseWindow_of_mid (k : ℤ) (p : WindowParameters) (s : ℕ)
    (hlo : minHU p < hu p s) (hhi : hu p s < maxHU p) :
    piecewiseWindow k p s = ⌊(hu p s - minHU p) / (maxHU p - minHU p) * k + 1 / 2⌋ := by
  simp [piecewiseWindow, not_le.mpr hlo, not_le.mpr hhi]

theorem piecewiseWindow_mid_mono (k : ℤ) (hk : 0 ≤ k) (p : WindowParameters) (a b : ℕ)
    (h : minHU p < maxHU p) (hab : hu p a ≤ hu p b)
    (hloa : minHU p < hu p a) (hhia : hu p a < maxHU p)
    (hlob : minHU p < hu p b) (hhib : hu p b < maxHU p) :
    piecewiseWindow k p a ≤ piecewiseWindow k p b := by
  rw [piecewiseWindow_of_mid k p a hloa hhia, piecewiseWindow_of_mid k p b hlob hhib]
  apply Int.floor_le_floor
  have hkq : (0 : ℚ) ≤ (k : ℚ) := by exact_mod_cast hk
  have hd : 0 < maxHU p - minHU p := by linarith
  have : (hu p a - minHU p) / (maxHU p - minHU p) ≤ (hu p b - minHU p) / (maxHU p - minHU p) :=
    div_le_div_of_nonneg_right (by linarith) hd.le
  have := mul_le_mul_of_nonneg_right this hkq
  linarith

/-- C5 (as stated, refuted): with `rescaleSlope = -1`, intercept 100 and the
default window centre and width, the samples 0 < 100 both have `hu` strictly
inside the window, yet the output for 0 exceeds the output for 100 in both
variants (44002 against 25278, and 171 against 98). -/
theorem windowing_not_monotone_negative_slope :
    minHU { rescaleSlope := -1, rescaleIntercept := 100, windowCenter := 40,
            windowWidth := 350 }
        < maxHU { rescaleSlope := -1, rescaleIntercept := 100, windowCenter := 40,
                  windowWidth := 350 }
      ∧ windowSample16 { rescaleSlope := -1, rescaleIntercept := 100, windowCenter := 40,
                         windowWidth := 350 } 0 = 44002
      ∧ windowSample16 { rescaleSlope := -1, rescaleIntercept := 100, windowCenter := 40,
                         windowWidth := 350 } 100 = 25278
      ∧ windowSample8 { rescaleSlope := -1, rescaleIntercept := 100, windowCenter := 40,
                        windowWidth := 350 } 0 = 171
      ∧ windowSample8 { rescaleSlope := -1, rescaleIntercept := 100, windowCenter := 40,
                        windowWidth := 350 } 100 = 98
      ∧ ¬ (∀ (p : WindowParameters) (a b : ℕ), minHU p < maxHU p → a < b →
            minHU p < hu p a → hu p a < maxHU p → minHU p < hu p b → hu p b < maxHU p →
            windowSample16 p a ≤ windowSample16 p b)
      ∧ ¬ (∀ (p : WindowParameters) (a b : ℕ), minHU p < maxHU p → a < b →
            minHU p < hu p a → hu p a < maxHU p → minHU p < hu p b → hu p b < maxHU p →
            windowSample8 p a ≤ windowSample8 p b) := by
  have hlt : minHU { rescaleSlope := -1, rescaleIntercept := 100, windowCenter := 40,
                     windowWidth := 350 }
      < maxHU { rescaleSlope := -1, rescaleIntercept := 100, windowCenter := 40,
                windowWidth := 350 } := by
    norm_num [minHU, maxHU]
  have e1 : windowSample16 { rescaleSlope := -1, rescaleIntercept := 100, windowCenter := 40,
                             windowWidth := 350 } 0 = 44002 := by
    rw [windowSample16_eq _ _ hlt]
    norm_num [piecewiseWindow, hu, minHU, maxHU]
    rfl
  have e2 : windowSample16 { rescaleSlope := -1, rescaleIntercept := 100, windowCenter := 40,
                             windowWidth := 350 } 100 = 25278 := by
    rw [windowSample16_eq _ _ hlt]
    norm_num [piecewiseWindow, hu, minHU, maxHU]
    rfl
  have e3 : windowSample8 { rescaleSlope := -1, rescaleIntercept := 100, windowCenter := 40,
                            windowWidth := 350 } 0 = 171 := by
    rw [windowSample8_eq _ _ hlt]
    norm_num [piecewiseWindow, hu, minHU, maxHU]
    rfl
  have e4 : windowSample8 { rescaleSlope := -1, rescaleIntercept := 100, windowCenter := 40,
                            windowWidth := 350 } 100 = 98 := by
    rw [windowSample8_eq _ _ hlt]
    norm_num [piecewiseWindow, hu, minHU, maxHU]
    rfl
  refine ⟨hlt, e1, e2, e3, e4, ?_, ?_⟩
  · intro hall
    have := hall { rescaleSlope := -1, rescaleIntercept := 100, windowCenter := 40,
                   windowWidth := 350 } 0 100 hlt (by norm_num)
      (by norm_num [hu, minHU]) (by norm_num [hu, maxHU])
      (by norm_num [hu, minHU]) (by norm_num [hu, maxHU])
    rw [e1, e2] at this
    omega
  · intro hall
    have := hall { rescaleSlope := -1, rescaleIntercept := 100, windowCenter := 40,
                   windowWidth := 350 } 0 100 hlt (by norm_num)
      (by norm_num [hu, minHU]) (by norm_num [hu, maxHU])
      (by norm_num [hu, minHU]) (by norm_num [hu, maxHU])
    rw [e3, e4] at this
    omega

/-- C5 (amended): for every window with `maxHU > minHU` and `rescaleSlope ≥ 0`
and every two samples `a < b` whose `hu` both lie strictly between `minHU` and
`maxHU`, the output of `applyWindowingToPixelData` for `a` is at most its
output for `b`, and likewise for the 8-bit loop of `compressToJpg`. -/
theorem windowing_monotone (p : WindowParameters) (a b : ℕ) (h : minHU p < maxHU p)
    (hslope : 0 ≤ p.rescaleSlope) (hab : a < b)
    (hloa : minHU p < hu p a) (hhia : hu p a < maxHU p)
    (hlob : minHU p < hu p b) (hhib : hu p b < maxHU p) :
    windowSample16 p a ≤ windowSample16 p b ∧ windowSample8 p a ≤ windowSample8 p b := by
  have habq : (a : ℚ) ≤ (b : ℚ) := by exact_mod_cast hab.le
  have hhu : hu p a ≤ hu p b := by
    unfold hu
    have := mul_le_mul_of_nonneg_right habq hslope
    linarith
  rw [windowSample16_eq p a h, windowSample16_eq p b h, windowSample8_eq p a h,
    windowSample8_eq p b h]
  exact ⟨Int.toNat_le_toNat
      (piecewiseWindow_mid_mono 65535 (by norm_num) p a b h hhu hloa hhia hlob hhib),
    Int.toNat_le_toNat
      (piecewiseWindow_mid_mono 255 (by norm_num) p a b h hhu hloa hhia hlob hhib)⟩

/-- Witness of the amended C5: the default window at the samples 1000 and
1100, whose `hu` are -24 and 76. -/
theorem windowing_monotone_witness :
    windowSample16 defaultWindow 1000 ≤ windowSample16 defaultWindow 1100
      ∧ windowSample8 defaultWindow 1000 ≤ windowSample8 defaultWindow 1100 :=
  windowing_monotone defaultWindow 1000 1100 defaultWindow_lt
    (by norm_num [defaultWindow]) (by norm_num)
    (by norm_num [hu, minHU, defaultWindow]) (by norm_num [hu, maxHU, defaultWindow])
    (by norm_num [hu, minHU, defaultWindow]) (by norm_num [hu, maxHU, defaultWindow])

/-- C6: for every sample and every window with `windowWidth > 0`, the byte the
JPEG path computes as `max(0, min(255, round(scaled)))` equals the piecewise
rule of `applyWindowingToPixelData` with 255 in place of 65535 (0 below the
window, 255 above it, `round` of the linear remap between), while the 16-bit
helper is that same rule with 65535. -/
theorem windowing_variants_share_rule (p : WindowParameters) (s : ℕ)
    (h : 0 < p.windowWidth) :
    windowValue8 p s = JSNum.fin (piecewiseWindow 255 p s)
      ∧ windowSample8 p s = (piecewiseWindow 255 p s).toNat
      ∧ windowValue16 p s = JSNum.fin (piecewiseWindow 65535 p s)
      ∧ windowSample16 p s = (piecewiseWindow 65535 p s).toNat := by
  have hlt : minHU p < maxHU p := by
    unfold minHU maxHU
    linarith
  exact ⟨windowValue8_eq_piecewise p s hlt, windowSample8_eq p s hlt,
    windowValue16_eq_piecewise p s, windowSample16_eq p s hlt⟩

/-- Witness of C6: the default window (width 350) at the sample 1064. -/
theorem windowing_variants_share_rule_witness :
    (0 : ℚ) < defaultWindow.windowWidth
      ∧ windowValue8 defaultWindow 1064 = JSNum.fin (piecewiseWindow 255 defaultWindow 1064)
      ∧ windowSample8 defaultWindow 1064 = (piecewiseWindow 255 defaultWindow 1064).toNat
      ∧ windowValue16 defaultWindow 1064
          = JSNum.fin (piecewiseWindow 65535 defaultWindow 1064)
      ∧ windowSample16 defaultWindow 1064
          = (piecewiseWindow 65535 defaultWindow 1064).toNat :=
  ⟨by norm_num [defaultWindow],
   windowing_variants_share_rule defaultWindow 1064 (by norm_num [defaultWindow])⟩

/-! ## The temporary container and its cleanup -/

theorem pgxContainer_length (le : Bool) (raw : List ℕ) (width height bits : ℕ)
    (p : WindowParameters) :
    (pgxContainer le raw width height bits p).length
      = (pgxHeader bits width height).length + 2 * (readUint16 le raw).length := by
  simp [pgxContainer, applyWindowingToPixelData, writeUint16_length]

theorem pgxContainer_bigEndian_host (raw : List ℕ) (width height bits : ℕ)
    (p : WindowParameters) :
    pgxContainer false raw width height bits p
      = pgxHeader bits width height
          ++ writeUint16 false ((readUint16 false raw).map (windowSample16 p)) := rfl

theorem windowSample16_default_1064 : windowSample16 defaultWindow 1064 = 32768 := by
  rw [windowSample16_eq _ _ defaultWindow_lt]
  norm_num [piecewiseWindow, hu, minHU, maxHU, defaultWindow]
  rfl

/-- C7 (failing input): on a little-endian host, the one-sample image 1064
(bytes 40, 4) with width 1, height 1, 16 bits and the default window gives the
container `PG ML + 16 1 1\r\n` followed by the bytes 0, 128: the windowed
sample 32768 is written least significant byte first, whereas the `ML` tag of
the header declares most significant byte first, that is 128, 0. -/
theorem pgxContainer_littleEndian_host :
    pgxHeader 16 1 1 = [80, 71, 32, 77, 76, 32, 43, 32, 49, 54, 32, 49, 32, 49, 13, 10]
      ∧ readUint16 true [40, 4] = [1064]
      ∧ windowSample16 defaultWindow 1064 = 32768
      ∧ pgxContainer true [40, 4] 1 1 16 defaultWindow = pgxHeader 16 1 1 ++ [0, 128]
      ∧ writeUint16 false [32768] = [128, 0] := by
  refine ⟨by decide, by decide, windowSample16_default_1064, ?_, by decide⟩
  simp only [pgxContainer, applyWindowingToPixelData, readUint16, List.map, if_true]
  rw [show 40 + 256 * 4 = 1064 from rfl, windowSample16_default_1064]
  rfl

theorem compressToJp2_encoder_failure (env : Env) (file rawPixelDataPath : String)
    (width height bits targetRatio : ℕ) (p : WindowParameters) (w w2 : World)
    (raw : List ℕ) (message : String)
    (hread : w.readFileSync rawPixelDataPath = .ok raw)
    (hexec : ∀ command, env.execSync command
        (w.writeFileSync (pathJoin env.outputDir (file ++ "_temp.pgx"))
          (pgxContainer env.littleEndian raw width height bits p)) = (some message, w2)) :
    compressToJp2 env file rawPixelDataPath width height bits targetRatio p w
      = (.error message, w2) := by
  simp only [compressToJp2, hread, hexec]

theorem compressToJph_encoder_failure (env : Env) (file rawPixelDataPath : String)
    (width height bits targetRatio : ℕ) (p : WindowParameters) (w w2 : World)
    (raw : List ℕ) (message : String)
    (hread : w.readFileSync rawPixelDataPath = .ok raw)
    (hexec : ∀ command, env.execSync command
        (w.writeFileSync (pathJoin env.outputDir (file ++ "_temp.raw"))
          (applyWindowingToPixelData env.littleEndian raw bits p)) = (some message, w2)) :
    compressToJph env file rawPixelDataPath width height bits targetRatio p w
      = (.error message, w2) := by
  simp only [compressToJph, hread, hexec]

/-- C9 (failing input): when the external encoder fails, `compressToJp2` and
`compressToJph` return an error sub-result without deleting the temporary
file: it did not exist before the call and exists after it. -/
theorem temp_file_left_after_encoder_failure :
    oneSampleWorld.existsSync "compressed/img_temp.pgx" = false
      ∧ (compressToJp2 failingEncoderEnv "img" "raw/img.bin" 1 1 16 5 defaultWindow
          oneSampleWorld).1 = SubResult.error "Command failed"
      ∧ (compressToJp2 failingEncoderEnv "img" "raw/img.bin" 1 1 16 5 defaultWindow
          oneSampleWorld).2.existsSync "compressed/img_temp.pgx" = true
      ∧ oneSampleWorld.existsSync "compressed/img_temp.raw" = false
      ∧ (compressToJph failingEncoderEnv "img" "raw/img.bin" 1 1 16 5 defaultWindow
          oneSampleWorld).1 = SubResult.error "Command failed"
      ∧ (compressToJph failingEncoderEnv "img" "raw/img.bin" 1 1 16 5 defaultWindow
          oneSampleWorld).2.existsSync "compressed/img_temp.raw" = true := by
  have hread : oneSampleWorld.readFileSync "raw/img.bin" = .ok [40, 4] := by
    simp [World.readFileSync, oneSampleWorld, List.lookup]
  have h2 := compressToJp2_encoder_failure failingEncoderEnv "img" "raw/img.bin" 1 1 16 5
    defaultWindow oneSampleWorld _ [40, 4] "Command failed" hread (fun _ => rfl)
  have hh := compressToJph_encoder_failure failingEncoderEnv "img" "raw/img.bin" 1 1 16 5
    defaultWindow oneSampleWorld _ [40, 4] "Command failed" hread (fun _ => rfl)
  rw [h2, hh]
  refine ⟨by decide, rfl, by decide, by decide, rfl, by decide⟩

/-! ## The sweep: the accumulated result list -/

theorem compressRatio_fst {σ : Type} (ad : Adapters σ) (dir : RawDir) (file : String)
    (md : Metadata) (acc : List ResultRecord × σ) (ratio : ℕ) :
    ∃ r : ResultRecord, (compressRatio ad dir file md acc ratio).1 = acc.1 ++ [r]
      ∧ r.staticFields = (file, md.width, md.height, md.bitsAllocated, ratio,
          (dir.pixelData file).length)
      ∧ (dir.metadata file = some md → fromAdapters ad dir r) := by
  refine ⟨_, rfl, rfl, ?_⟩
  intro hmd
  exact ⟨md, _, _, _, hmd, rfl, rfl, rfl⟩

theorem foldl_compressRatio_static {σ : Type} (ad : Adapters σ) (dir : RawDir)
    (file : String) (md : Metadata) (ratios : List ℕ) (acc : List ResultRecord × σ) :
    (ratios.foldl (compressRatio ad dir file md) acc).1.map ResultRecord.staticFields
      = acc.1.map ResultRecord.staticFields
          ++ ratios.map (fun ratio => (file, md.width, md.height, md.bitsAllocated, ratio,
              (dir.pixelData file).length)) := by
  induction ratios generalizing acc with
  | nil => simp
  | cons ratio rest ih =>
    obtain ⟨r, hr, hs, _⟩ := compressRatio_fst ad dir file md acc ratio
    rw [List.foldl_cons, ih, hr]
    simp [hs]

theorem foldl_compressRatio_fromAdapters {σ : Type} (ad : Adapters σ) (dir : RawDir)
    (file : String) (md : Metadata) (hmd : dir.metadata file = some md) (ratios : List ℕ)
    (acc : List ResultRecord × σ) (hacc : ∀ r ∈ acc.1, fromAdapters ad dir r) :
    ∀ r ∈ (ratios.foldl (compressRatio ad dir file md) acc).1, fromAdapters ad dir r := by
  induction ratios generalizing acc with
  | nil => simpa using hacc
  | cons ratio rest ih =>
    obtain ⟨r, hr, _, hf⟩ := compressRatio_fst ad dir file md acc ratio
    rw [List.foldl_cons]
    apply ih
    intro x hx
    rw [hr, List.mem_append, List.mem_singleton] at hx
    rcases hx with hx | hx
    · exact hacc x hx
    · exact hx ▸ hf hmd

theorem foldl_compressImage_static {σ : Type} (ad : Adapters σ) (dir : RawDir)
    (files : List String) (acc : List ResultRecord × σ) :
    (files.foldl (compressImage ad dir) acc).1.map ResultRecord.staticFields
      = acc.1.map ResultRecord.staticFields ++ expectedStaticFields dir files := by
  induction files generalizing acc with
  | nil => simp [expectedStaticFields]
  | cons file rest ih =>
    rw [List.foldl_cons, ih]
    unfold compressImage expectedStaticFields
    cases hmd : dir.metadata file with
    | none => simp [hmd]
    | some md => simp [hmd, foldl_compressRatio_static]

theorem foldl_compressImage_fromAdapters {σ : Type} (ad : Adapters σ) (dir : RawDir)
    (files : List String) (acc : List ResultRecord × σ)
    (hacc : ∀ r ∈ acc.1, fromAdapters ad dir r) :
    ∀ r ∈ (files.foldl (compressImage ad dir) acc).1, fromAdapters ad dir r := by
  induction files generalizing acc with
  | nil => simpa using hacc
  | cons file rest ih =>
    rw [List.foldl_cons]
    apply ih
    unfold compressImage
    cases hmd : dir.metadata file with
    | none => simpa using hacc
    | some md => exact foldl_compressRatio_fromAdapters ad dir file md hmd _ acc hacc

theorem expectedStaticFields_length (dir : RawDir) (files : List String) :
    (expectedStaticFields dir files).length
      = 6 * (files.filter (fun file => (dir.metadata file).isSome)).length := by
  induction files with
  | nil => simp [expectedStaticFields]
  | cons file rest ih =>
    unfold expectedStaticFields at ih ⊢
    rw [List.flatMap_cons, List.length_append, ih]
    cases hmd : dir.metadata file with
    | none => simp [hmd]
    | some md =>
      simp [hmd, targetCompressionRatios]
      ring

theorem foldl_compressRatio_pure (jpg : String → List ℕ → ℕ → ℕ → ℕ → ℕ → SubResult)
    (jp2 jph : String → String → ℕ → ℕ → ℕ → ℕ → SubResult) (dir : RawDir)
    (file : String) (md : Metadata) (ratios : List ℕ) (acc : List ResultRecord × Unit) :
    (ratios.foldl (compressRatio (pureAdapters jpg jp2 jph) dir file md) acc).1
      = acc.1 ++ ratios.map (fun ratio =>
          { filename := file, width := md.width, height := md.height,
            bitDepth := md.bitsAllocated, targetCompressionRatio := ratio,
            originalSize := (dir.pixelData file).length,
            jpeg := jpg file (dir.pixelData file) md.width md.height md.bitsAllocated
              (mapCompressionRatioToJpegQuality ratio),
            jp2 := jp2 file (pathJoin dir.path (file ++ ".bin")) md.width md.height
              md.bitsAllocated ratio,
            jph := jph file (pathJoin dir.path (file ++ ".bin")) md.width md.height
              md.bitsAllocated ratio }) := by
  induction ratios generalizing acc with
  | nil => simp
  | cons ratio rest ih =>
    rw [List.foldl_cons, ih]
    simp [compressRatio, pureAdapters]

theorem foldl_compressImage_pure (jpg : String → List ℕ → ℕ → ℕ → ℕ → ℕ → SubResult)
    (jp2 jph : String → String → ℕ → ℕ → ℕ → ℕ → SubResult) (dir : RawDir)
    (files : List String) (acc : List ResultRecord × Unit) :
    (files.foldl (compressImage (pureAdapters jpg jp2 jph) dir) acc).1
      = acc.1 ++ expectedRecords jpg jp2 jph dir files := by
  induction files generalizing acc with
  | nil => simp [expectedRecords]
  | cons file rest ih =>
    rw [List.foldl_cons, ih]
    unfold compressImage expectedRecords
    cases hmd : dir.metadata file with
    | none => simp [hmd]
    | some md => simp [hmd, foldl_compressRatio_pure]

/-- C10: the list `compressImages` accumulates holds, for the images in order,
nothing for an image whose metadata file is missing and otherwise one record
per target ratio of the sweep `[5, 10, 15, 20, 30, 50]`, carrying the
filename, width, height, bitDepth = bitsAllocated, the ratio and originalSize
= length of the raw buffer; it has 6 records per image with metadata; the
sub-results of every record are what the three adapters returned for its image
and ratio; and for adapters that are functions of their arguments the list is
exactly the expected list of full records. -/
theorem compressImages_results {σ : Type} (ad : Adapters σ) (dir : RawDir)
    (files : List String) (st : σ) :
    (compressImages ad dir files st).1.map ResultRecord.staticFields
        = expectedStaticFields dir files
      ∧ (compressImages ad dir files st).1.length
        = 6 * (files.filter (fun file => (dir.metadata file).isSome)).length
      ∧ (∀ r ∈ (compressImages ad dir files st).1, fromAdapters ad dir r)
      ∧ (∀ (jpg : String → List ℕ → ℕ → ℕ → ℕ → ℕ → SubResult)
           (jp2 jph : String → String → ℕ → ℕ → ℕ → ℕ → SubResult),
          (compressImages (pureAdapters jpg jp2 jph) dir files ()).1
            = expectedRecords jpg jp2 jph dir files) := by
  have hstatic : (compressImages ad dir files st).1.map ResultRecord.staticFields
      = expectedStaticFields dir files := by
    unfold compressImages
    rw [foldl_compressImage_static]
    simp
  refine ⟨hstatic, ?_, ?_, ?_⟩
  · rw [← expectedStaticFields_length, ← hstatic, List.length_map]
  · exact foldl_compressImage_fromAdapters ad dir files ([], st) (by simp)
  · intro jpg jp2 jph
    unfold compressImages
    rw [foldl_compressImage_pure]
    simp

/-! ## Statistics -/

theorem jsAdd_comm (x y : JSNum) : JSNum.add x y = JSNum.add y x := by
  cases x <;> cases y <;> simp [JSNum.add, add_comm]

theorem jsAdd_assoc (x y z : JSNum) :
    JSNum.add (JSNum.add x y) z = JSNum.add x (JSNum.add y z) := by
  cases x <;> cases y <;> cases z <;> simp [JSNum.add, add_assoc]

theorem jsAdd_zero (x : JSNum) : JSNum.add (JSNum.fin 0) x = x := by
  cases x <;> simp [JSNum.add]

theorem foldl_jsAdd (vs : List JSNum) (a : JSNum) :
    vs.foldl (fun sum val => JSNum.add sum val) a = JSNum.add a (vs.foldr JSNum.add (JSNum.fin 0)) := by
  induction vs generalizing a with
  | nil =>
    rw [jsAdd_comm]
    simp [jsAdd_zero]
  | cons v rest ih =>
    rw [List.foldl_cons, ih, List.foldr_cons, jsAdd_assoc]

/-- The function `average` computes the arithmetic mean. -/
theorem average_eq_arithmeticMean (vs : List JSNum) : average vs = arithmeticMean vs := by
  cases vs with
  | nil => simp [average, arithmeticMean]
  | cons v rest =>
    unfold average arithmeticMean
    rw [foldl_jsAdd, jsAdd_zero]
    simp

theorem foldr_jsAdd_fin (qs : List ℚ) :
    List.foldr JSNum.add (JSNum.fin 0) (qs.map JSNum.fin) = JSNum.fin qs.sum := by
  induction qs with
  | nil => simp
  | cons q rest ih => simp [ih, JSNum.add]

/-- On finite values the arithmetic mean is the sum over the count, and 0 for
the empty list. -/
theorem arithmeticMean_fin (qs : List ℚ) :
    arithmeticMean (qs.map JSNum.fin)
      = JSNum.fin (if qs.length = 0 then 0 else qs.sum / qs.length) := by
  cases qs with
  | nil => simp [arithmeticMean]
  | cons q rest =>
    have h := foldr_jsAdd_fin (q :: rest)
    simp only [List.map_cons] at h
    simp only [arithmeticMean, List.map_cons, h, JSNum.divPos, List.length_map]
    simp

theorem collectResult_ok (m : ℕ → Option RatioSamples) (result : ResultRecord)
    (b : RatioSamples) (hb : m result.targetCompressionRatio = some b) :
    collectResult m result
      = .ok (Function.update m result.targetCompressionRatio (some (pushRecord b result))) := by
  have hself : Function.update m result.targetCompressionRatio (some b) = m := by
    rw [← hb]
    exact Function.update_eq_self _ _
  rcases result with ⟨filename, width, height, bitDepth, ratio, size, jpeg, jp2, jph⟩
  simp only at hb hself
  cases jpeg <;> cases jp2 <;> cases jph <;>
    simp [collectResult, collectCodec, pushRecord, pushCodec, hb, bind, Except.bind, hself]

theorem appendSamples_nil (wq : Bool) (b : Samples) : appendSamples wq b [] = b := by
  cases wq <;> simp [appendSamples]

theorem appendSamples_push (wq : Bool) (b : Samples) (s : Success) (succ : List Success) :
    appendSamples wq (pushSamples wq b s) succ = appendSamples wq b (s :: succ) := by
  cases wq <;> simp [appendSamples, pushSamples]

theorem successes_cons (codec : ResultRecord → SubResult) (result : ResultRecord)
    (rest : List ResultRecord) (k : ℕ) :
    successes codec (result :: rest) k
      = if result.targetCompressionRatio = k then
          match codec result with
          | .ok s => s :: successes codec rest k
          | .error _ => successes codec rest k
        else successes codec rest k := by
  unfold successes
  by_cases hk : result.targetCompressionRatio = k
  · cases hc : codec result <;> simp [List.filterMap_cons, hk, hc]
  · simp [List.filterMap_cons, hk]

theorem appendSamples_pushCodec (wq : Bool) (b : Samples) (codec : ResultRecord → SubResult)
    (result : ResultRecord) (rest : List ResultRecord) :
    appendSamples wq (pushCodec wq b (codec result))
        (successes codec rest result.targetCompressionRatio)
      = appendSamples wq b
          (successes codec (result :: rest) result.targetCompressionRatio) := by
  rw [successes_cons]
  cases hc : codec result with
  | ok s => simp [pushCodec, appendSamples_push]
  | error e => simp [pushCodec]

theorem collected_pushRecord (result : ResultRecord) (rest : List ResultRecord)
    (b : RatioSamples) :
    collected rest result.targetCompressionRatio (pushRecord b result)
      = collected (result :: rest) result.targetCompressionRatio b := by
  unfold collected pushRecord
  rw [appendSamples_pushCodec true b.jpeg (fun r => r.jpeg),
    appendSamples_pushCodec false b.jp2 (fun r => r.jp2),
    appendSamples_pushCodec false b.jph (fun r => r.jph)]

theorem collected_cons_of_ne (result : ResultRecord) (rest : List ResultRecord) (k : ℕ)
    (hk : result.targetCompressionRatio ≠ k) (b : RatioSamples) :
    collected (result :: rest) k b = collected rest k b := by
  unfold collected
  simp [successes_cons, hk]

theorem foldlM_collectResult (results : List ResultRecord) (m : ℕ → Option RatioSamples)
    (hkeys : ∀ result ∈ results, (m result.targetCompressionRatio).isSome) :
    ∃ m2, results.foldlM collectResult m = .ok m2
      ∧ ∀ k, m2 k = (m k).map (collected results k) := by
  induction results generalizing m with
  | nil =>
    refine ⟨m, rfl, fun k => ?_⟩
    cases hm : m k with
    | none => rfl
    | some b => simp [collected, successes, appendSamples_nil]
  | cons result rest ih =>
    obtain ⟨b, hb⟩ := Option.isSome_iff_exists.mp (hkeys result (List.mem_cons_self _ _))
    have hkeys2 : ∀ r ∈ rest,
        (Function.update m result.targetCompressionRatio (some (pushRecord b result))
          r.targetCompressionRatio).isSome := by
      intro r hr
      by_cases hk : r.targetCompressionRatio = result.targetCompressionRatio
      · rw [hk, Function.update_same]
        rfl
      · rw [Function.update_noteq hk]
        exact hkeys r (List.mem_cons_of_mem _ hr)
    obtain ⟨m2, hm2, hval⟩ := ih _ hkeys2
    refine ⟨m2, ?_, fun k => ?_⟩
    · rw [List.foldlM_cons, collectResult_ok m result b hb]
      exact hm2
    · rw [hval k]
      by_cases hk : k = result.targetCompressionRatio
      · subst hk
        simp [hb, collected_pushRecord]
      · rw [Function.update_noteq hk]
        cases hm : m k with
        | none => rfl
        | some b2 => simp [collected_cons_of_ne result rest k (Ne.symm hk)]

theorem foldl_update_const {β : Type} (v : β) (ks : List ℕ) (m : ℕ → Option β) (k : ℕ) :
    ks.foldl (fun byRatio ratio => Function.update byRatio ratio (some v)) m k
      = if k ∈ ks then some v else m k := by
  induction ks generalizing m with
  | nil => simp
  | cons x rest ih =>
    rw [List.foldl_cons, ih]
    by_cases hrest : k ∈ rest
    · simp [hrest]
    · by_cases hx : k = x
      · subst hx
        simp [hrest]
      · simp [hrest, hx, Function.update_noteq hx]

theorem initByRatio_of_mem (k : ℕ) (hk : k ∈ targetCompressionRatios) :
    initByRatio k
      = some { jpeg := emptySamples, jp2 := emptySamples, jph := emptySamples } := by
  unfold initByRatio
  rw [foldl_update_const, if_pos hk]

theorem foldlM_statsStep (m : ℕ → Option RatioSamples) (ks : List ℕ)
    (stats : ℕ → Option RatioStats) (hkeys : ∀ k ∈ ks, (m k).isSome) :
    ∃ stats2, ks.foldlM (statsStep m) stats = .ok stats2
      ∧ ∀ k, stats2 k = if k ∈ ks then (m k).map ratioStats else stats k := by
  induction ks generalizing stats with
  | nil => exact ⟨stats, rfl, fun k => by simp⟩
  | cons x rest ih =>
    obtain ⟨b, hb⟩ := Option.isSome_iff_exists.mp (hkeys x (List.mem_cons_self _ _))
    obtain ⟨stats2, h2, hval⟩ :=
      ih (Function.update stats x (some (ratioStats b)))
        (fun k hk => hkeys k (List.mem_cons_of_mem _ hk))
    refine ⟨stats2, ?_, fun k => ?_⟩
    · rw [List.foldlM_cons]
      simp only [statsStep, hb, ratioStats] at h2 ⊢
      exact h2
    · rw [hval k]
      by_cases hrest : k ∈ rest
      · simp [hrest]
      · by_cases hx : k = x
        · subst hx
          simp [hrest, hb]
        · simp [hrest, hx, Function.update_noteq hx]

theorem codecStats_appendSamples (wq : Bool) (succ : List Success) :
    codecStats wq (appendSamples wq emptySamples succ) = expectedCodecStats wq succ := by
  cases wq <;>
    simp [codecStats, appendSamples, emptySamples, expectedCodecStats,
      average_eq_arithmeticMean]

theorem ratioStats_collected (results : List ResultRecord) (k : ℕ) :
    ratioStats (collected results k
        { jpeg := emptySamples, jp2 := emptySamples, jph := emptySamples })
      = expectedStats results k := by
  simp only [ratioStats, collected, expectedStats, codecStats_appendSamples]

/-- Every record `compressImages` produces has its target ratio in the sweep. -/
theorem compressImages_ratio_mem {σ : Type} (ad : Adapters σ) (dir : RawDir)
    (files : List String) (st : σ) :
    ∀ result ∈ (compressImages ad dir files st).1,
      result.targetCompressionRatio ∈ targetCompressionRatios := by
  intro result hres
  have hstatic : (compressImages ad dir files st).1.map ResultRecord.staticFields
      = expectedStaticFields dir files := by
    unfold compressImages
    rw [foldl_compressImage_static]
    simp
  have hmem : result.staticFields ∈ expectedStaticFields dir files := by
    rw [← hstatic]
    exact List.mem_map_of_mem _ hres
  unfold expectedStaticFields at hmem
  rw [List.mem_flatMap] at hmem
  obtain ⟨file, _, hfile⟩ := hmem
  cases hmd : dir.metadata file with
  | none => simp [hmd] at hfile
  | some md =>
    simp only [hmd, List.mem_map] at hfile
    obtain ⟨ratio, hratio, heq⟩ := hfile
    have : result.targetCompressionRatio = ratio := by
      simp only [ResultRecord.staticFields, Prod.mk.injEq] at heq
      exact heq.2.2.2.2.1.symm
    rw [this]
    exact hratio

/-- C8: for every list of result records with target ratios of the sweep (as
`compressImages` produces them), `generateStatistics` returns `stats` in which
every target ratio `r` of the sweep has a bucket whose `avgTime`, `avgSize`,
`avgRatio` (and `avgQuality` for JPEG) are the arithmetic means of
`compressionTime`, `compressedSize`, `compressionRatio` (and `quality`) over
exactly the records with target ratio `r` whose sub-result for the codec has
no error; with no such record every average is exactly 0; and the mean of
finite values is their sum divided by their count. -/
theorem generateStatistics_means (results : List ResultRecord)
    (h : ∀ result ∈ results, result.targetCompressionRatio ∈ targetCompressionRatios) :
    (∃ stats, generateStatistics results = .ok stats
        ∧ ∀ r ∈ targetCompressionRatios, stats r = some (expectedStats results r))
      ∧ expectedCodecStats true []
          = { avgTime := JSNum.fin 0, avgSize := JSNum.fin 0, avgRatio := JSNum.fin 0,
              avgQuality := some (JSNum.fin 0) }
      ∧ expectedCodecStats false []
          = { avgTime := JSNum.fin 0, avgSize := JSNum.fin 0, avgRatio := JSNum.fin 0,
              avgQuality := none }
      ∧ (∀ qs : List ℚ, average (qs.map JSNum.fin)
          = JSNum.fin (if qs.length = 0 then 0 else qs.sum / qs.length)) := by
  refine ⟨?_, by simp [expectedCodecStats, arithmeticMean],
    by simp [expectedCodecStats, arithmeticMean],
    fun qs => by rw [average_eq_arithmeticMean, arithmeticMean_fin]⟩
  obtain ⟨m2, hm2, hval⟩ := foldlM_collectResult results initByRatio (fun result hres => by
    rw [initByRatio_of_mem _ (h result hres)]
    rfl)
  have hkeys : ∀ k ∈ targetCompressionRatios, (m2 k).isSome := by
    intro k hk
    rw [hval k, initByRatio_of_mem k hk]
    rfl
  obtain ⟨stats, hstats, hsv⟩ :=
    foldlM_statsStep m2 targetCompressionRatios (fun _ => none) hkeys
  refine ⟨stats, ?_, fun r hr => ?_⟩
  · unfold generateStatistics
    rw [hm2]
    exact hstats
  · rw [hsv r, if_pos hr, hval r, initByRatio_of_mem r hr]
    simp only [Option.map_some', ratioStats_collected]

/-- Witness of C8: the two sample records, whose target ratios 5 and 10 are in
the sweep. -/
theorem generateStatistics_means_witness :
    (∀ result ∈ sampleResults, result.targetCompressionRatio ∈ targetCompressionRatios)
      ∧ (∃ stats, generateStatistics sampleResults = .ok stats
          ∧ ∀ r ∈ targetCompressionRatios, stats r = some (expectedStats sampleResults r))
      ∧ (expectedStats sampleResults 5).jpeg
          = { avgTime := JSNum.fin 12, avgSize := JSNum.fin 8, avgRatio := JSNum.fin 4,
              avgQuality := some (JSNum.fin 80) }
      ∧ (expectedStats sampleResults 5).jp2
          = { avgTime := JSNum.fin 0, avgSize := JSNum.fin 0, avgRatio := JSNum.fin 0,
              avgQuality := none }
      ∧ (expectedStats sampleResults 10).jph
          = { avgTime := JSNum.fin 0, avgSize := JSNum.fin 0, avgRatio := JSNum.fin 0,
              avgQuality := none } :=
  ⟨by simp [sampleResults, targetCompressionRatios],
   (generateStatistics_means sampleResults
      (by simp [sampleResults, targetCompressionRatios])).1,
   by simp [expectedStats, expectedCodecStats, successes, sampleResults, arithmeticMean,
      JSNum.add, JSNum.divPos, optNum],
   by simp [expectedStats, expectedCodecStats, successes, sampleResults, arithmeticMean],
   by simp [expectedStats, expectedCodecStats, successes, sampleResults, arithmeticMean]⟩

/-! ## Round-trip sizing -/

theorem compressToJpg_ratio (env : Env) (file : String) (rawPixelData : List ℕ)
    (width height bitsAllocated quality : ℕ) (p : WindowParameters) (w : World) (s : Success)
    (h : (compressToJpg env file rawPixelData width height bitsAllocated quality p w).1
      = .ok s) :
    s.compressionRatio = JSNum.div rawPixelData.length s.compressedSize := by
  unfold compressToJpg at h
  simp only at h
  split at h
  · simp at h
  · split at h
    · simp at h
    · simp only [SubResult.ok.injEq] at h
      subst h
      rfl

theorem compressToJp2_ratio (env : Env) (file rawPixelDataPath : String)
    (rawPixelData : List ℕ) (width height bitsAllocated targetRatio : ℕ)
    (p : WindowParameters) (w : World) (s : Success)
    (hread : w.readFileSync rawPixelDataPath = .ok rawPixelData)
    (h : (compressToJp2 env file rawPixelDataPath width height bitsAllocated targetRatio p
      w).1 = .ok s) :
    s.compressionRatio = JSNum.div rawPixelData.length s.compressedSize := by
  unfold compressToJp2 at h
  simp only [hread] at h
  split at h
  · simp at h
  · split at h
    · simp at h
    · split at h
      · simp at h
      · simp only [SubResult.ok.injEq] at h
        subst h
        rfl

theorem compressToJph_ratio (env : Env) (file rawPixelDataPath : String)
    (rawPixelData : List ℕ) (width height bitsAllocated targetRatio : ℕ)
    (p : WindowParameters) (w : World) (s : Success)
    (hread : w.readFileSync rawPixelDataPath = .ok rawPixelData)
    (h : (compressToJph env file rawPixelDataPath width height bitsAllocated targetRatio p
      w).1 = .ok s) :
    s.compressionRatio = JSNum.div rawPixelData.length s.compressedSize := by
  unfold compressToJph at h
  simp only [hread] at h
  split at h
  · simp at h
  · split at h
    · simp at h
    · split at h
      · simp at h
      · simp only [SubResult.ok.injEq] at h
        subst h
        rfl

theorem compressToJp2_reads (env : Env) (file rawPixelDataPath : String)
    (width height bitsAllocated targetRatio : ℕ) (p : WindowParameters) (w : World)
    (s : Success)
    (h : (compressToJp2 env file rawPixelDataPath width height bitsAllocated targetRatio p
      w).1 = .ok s) :
    ∃ raw, w.readFileSync rawPixelDataPath = .ok raw := by
  cases hread : w.readFileSync rawPixelDataPath with
  | ok raw => exact ⟨raw, rfl⟩
  | error e =>
    unfold compressToJp2 at h
    simp [hread] at h

theorem compressToJph_reads (env : Env) (file rawPixelDataPath : String)
    (width height bitsAllocated targetRatio : ℕ) (p : WindowParameters) (w : World)
    (s : Success)
    (h : (compressToJph env file rawPixelDataPath width height bitsAllocated targetRatio p
      w).1 = .ok s) :
    ∃ raw, w.readFileSync rawPixelDataPath = .ok raw := by
  cases hread : w.readFileSync rawPixelDataPath with
  | ok raw => exact ⟨raw, rfl⟩
  | error e =>
    unfold compressToJph at h
    simp [hread] at h

/-- Every record `compressImages` produces stores the length of the raw buffer
of its image as `originalSize`. -/
theorem compressImages_originalSize {σ : Type} (ad : Adapters σ) (dir : RawDir)
    (files : List String) (st : σ) :
    ∀ result ∈ (compressImages ad dir files st).1,
      result.originalSize = (dir.pixelData result.filename).length := by
  intro result hres
  have hstatic : (compressImages ad dir files st).1.map ResultRecord.staticFields
      = expectedStaticFields dir files := by
    unfold compressImages
    rw [foldl_compressImage_static]
    simp
  have hmem : result.staticFields ∈ expectedStaticFields dir files := by
    rw [← hstatic]
    exact List.mem_map_of_mem _ hres
  unfold expectedStaticFields at hmem
  rw [List.mem_flatMap] at hmem
  obtain ⟨file, _, hfile⟩ := hmem
  cases hmd : dir.metadata file with
  | none => simp [hmd] at hfile
  | some md =>
    simp only [hmd, List.mem_map] at hfile
    obtain ⟨ratio, _, heq⟩ := hfile
    simp only [ResultRecord.staticFields, Prod.mk.injEq] at heq
    rw [← heq.2.2.2.2.2, ← heq.1]

theorem compressToJpg_sample :
    (compressToJpg workingEncoderEnv "img" [40, 4] 1 1 16 80 defaultWindow oneSampleWorld).1
      = .ok sampleJpgSuccess := by
  have hpath : pathJoin "compressed" ("img" ++ "_q" ++ toString 80 ++ ".jpg")
      = "compressed/img_q80.jpg" := by decide
  simp only [compressToJpg, workingEncoderEnv, hpath, World.writeFileSync, World.statSize,
    List.lookup, beq_self_eq_true, oneSampleWorld, sampleJpgSuccess]
  norm_num [JSNum.div]

theorem compressToJp2_sample :
    (compressToJp2 workingEncoderEnv "img" "raw/img.bin" 1 1 16 5 defaultWindow
      oneSampleWorld).1 = .ok sampleJp2Success := by
  have hout : pathJoin "compressed" ("img" ++ "_ratio" ++ toString 5 ++ ".jp2")
      = "compressed/img_ratio5.jp2" := by decide
  have htmp : pathJoin "compressed" ("img" ++ "_temp.pgx") = "compressed/img_temp.pgx" := by
    decide
  have hread : oneSampleWorld.readFileSync "raw/img.bin" = .ok [40, 4] := by
    simp [World.readFileSync, oneSampleWorld, List.lookup]
  simp only [compressToJp2, hread, workingEncoderEnv, hout, htmp]
  simp [World.writeFileSync, World.unlinkSync, World.statSize, List.lookup, oneSampleWorld,
    sampleJp2Success, JSNum.div]
  norm_num

theorem compressToJph_sample :
    (compressToJph workingEncoderEnv "img" "raw/img.bin" 1 1 16 5 defaultWindow
      oneSampleWorld).1 = .ok sampleJphSuccess := by
  have hout : pathJoin "compressed" ("img" ++ "_ratio" ++ toString 5 ++ ".jph")
      = "compressed/img_ratio5.jph" := by decide
  have htmp : pathJoin "compressed" ("img" ++ "_temp.raw") = "compressed/img_temp.raw" := by
    decide
  have hread : oneSampleWorld.readFileSync "raw/img.bin" = .ok [40, 4] := by
    simp [World.readFileSync, oneSampleWorld, List.lookup]
  simp only [compressToJph, hread, workingEncoderEnv, hout, htmp]
  simp [World.writeFileSync, World.unlinkSync, World.statSize, List.lookup, oneSampleWorld,
    sampleJphSuccess, JSNum.div]
  norm_num

/-! ## The raw files during the sweep -/

theorem string_ne_of_getLast (s t : String) (x y : Char) (hxy : x ≠ y)
    (hs : s.data.getLast? = some x) (ht : t.data.getLast? = some y) : s ≠ t := by
  intro h
  rw [h, ht] at hs
  exact hxy (Option.some.inj hs).symm

theorem getLast_append_suffix (a c : String) (x : Char) (hc : c.data.getLast? = some x) :
    (a ++ c).data.getLast? = some x := by
  have hcne : c.data ≠ [] := by
    intro hnil
    rw [hnil] at hc
    simp at hc
  rw [String.data_append, List.getLast?_append_of_ne_nil _ hcne, hc]

theorem getLast_rawPath (dir file : String) :
    (pathJoin dir (file ++ ".bin")).data.getLast? = some 'n' := by
  unfold pathJoin
  rw [← String.append_assoc]
  exact getLast_append_suffix _ _ _ (by decide)

theorem lookup_filter_ne (l : List (String × List ℕ)) (p q : String) (hpq : p ≠ q) :
    (l.filter (fun f => f.1 ≠ p)).lookup q = l.lookup q := by
  induction l with
  | nil => rfl
  | cons f rest ih =>
    obtain ⟨name, data⟩ := f
    by_cases hname : name = p
    · subst hname
      have hq : (q == name) = false := by
        simpa using fun h => hpq h.symm
      simp only [decide_not] at ih
      simp [List.filter_cons, List.lookup, hq, ih]
    · by_cases hqn : q = name
      · subst hqn
        simp [List.filter_cons, hname, List.lookup]
      · have hq : (q == name) = false := by simpa using hqn
        simp only [decide_not] at ih
        simp [List.filter_cons, hname, List.lookup, hq, ih]

theorem readFileSync_writeFileSync_ne (w : World) (p q : String) (data : List ℕ)
    (hpq : p ≠ q) : (w.writeFileSync p data).readFileSync q = w.readFileSync q := by
  have hq : (q == p) = false := by
    simpa using fun h => hpq h.symm
  simp only [World.readFileSync, World.writeFileSync, List.lookup, hq,
    lookup_filter_ne _ p q hpq]

theorem readFileSync_unlinkSync_ne (w w3 : World) (p q : String) (hpq : p ≠ q)
    (h : w.unlinkSync p = .ok w3) : w3.readFileSync q = w.readFileSync q := by
  unfold World.unlinkSync at h
  split at h
  · simp only [Except.ok.injEq] at h
    subst h
    simp only [World.readFileSync, lookup_filter_ne _ p q hpq]
  · simp at h

theorem rawFilesAgree_writeFileSync (dir : RawDir) (files : List String) (w : World)
    (p : String) (data : List ℕ) (x : Char) (hx : x ≠ 'n') (hp : p.data.getLast? = some x)
    (h : rawFilesAgree dir files w) : rawFilesAgree dir files (w.writeFileSync p data) := by
  intro file hfile
  rw [readFileSync_writeFileSync_ne w p _ data
    (string_ne_of_getLast _ _ x 'n' hx hp (getLast_rawPath dir.path file))]
  exact h file hfile

theorem rawFilesAgree_unlinkSync (dir : RawDir) (files : List String) (w w3 : World)
    (p : String) (x : Char) (hx : x ≠ 'n') (hp : p.data.getLast? = some x)
    (hun : w.unlinkSync p = .ok w3) (h : rawFilesAgree dir files w) :
    rawFilesAgree dir files w3 := by
  intro file hfile
  rw [readFileSync_unlinkSync_ne w w3 p _
    (string_ne_of_getLast _ _ x 'n' hx hp (getLast_rawPath dir.path file)) hun]
  exact h file hfile

theorem compressToJpg_snd (env : Env) (file : String) (rawPixelData : List ℕ)
    (width height bitsAllocated quality : ℕ) (p : WindowParameters) (w : World) :
    (compressToJpg env file rawPixelData width height bitsAllocated quality p w).2
      = (env.sharp (jpgInputBuffer env.littleEndian rawPixelData bitsAllocated p) width height
          quality (pathJoin env.outputDir (file ++ "_q" ++ toString quality ++ ".jpg")) w).2 := by
  unfold compressToJpg
  simp only
  split
  · rename_i heq
    rw [heq]
  · rename_i heq
    rw [heq]
    split <;> rfl

theorem compressToJp2_agree (env : Env) (dir : RawDir) (files : List String)
    (hexec : ∀ command wd, rawFilesAgree dir files wd →
      rawFilesAgree dir files (env.execSync command wd).2)
    (file rawPixelDataPath : String) (width height bitsAllocated targetRatio : ℕ)
    (p : WindowParameters) (w : World) (h : rawFilesAgree dir files w) :
    rawFilesAgree dir files
      (compressToJp2 env file rawPixelDataPath width height bitsAllocated targetRatio p w).2 := by
  have htmp : (pathJoin env.outputDir (file ++ "_temp.pgx")).data.getLast? = some 'x' := by
    unfold pathJoin
    rw [← String.append_assoc]
    exact getLast_append_suffix _ _ _ (by decide)
  unfold compressToJp2
  simp only
  split
  · exact h
  · have h1 := rawFilesAgree_writeFileSync dir files w _
      (pgxContainer env.littleEndian ‹List ℕ› width height bitsAllocated p) 'x' (by decide)
      htmp h
    have hstep : ∀ (command : String) (wd : World) (o : Option String) (w2 : World),
        rawFilesAgree dir files wd → env.execSync command wd = (o, w2) →
        rawFilesAgree dir files w2 := by
      intro command wd o w2 hwd hex
      have h2 := hexec command wd hwd
      rw [hex] at h2
      exact h2
    split
    · rename_i heq
      exact hstep _ _ _ _ h1 heq
    · rename_i heq
      have h2 := hstep _ _ _ _ h1 heq
      split
      · exact h2
      · rename_i hun
        have h3 := rawFilesAgree_unlinkSync dir files _ _ _ 'x' (by decide) htmp hun h2
        split <;> exact h3

theorem compressToJph_agree (env : Env) (dir : RawDir) (files : List String)
    (hexec : ∀ command wd, rawFilesAgree dir files wd →
      rawFilesAgree dir files (env.execSync command wd).2)
    (file rawPixelDataPath : String) (width height bitsAllocated targetRatio : ℕ)
    (p : WindowParameters) (w : World) (h : rawFilesAgree dir files w) :
    rawFilesAgree dir files
      (compressToJph env file rawPixelDataPath width height bitsAllocated targetRatio p w).2 := by
  have htmp : (pathJoin env.outputDir (file ++ "_temp.raw")).data.getLast? = some 'w' := by
    unfold pathJoin
    rw [← String.append_assoc]
    exact getLast_append_suffix _ _ _ (by decide)
  unfold compressToJph
  simp only
  split
  · exact h
  · have h1 := rawFilesAgree_writeFileSync dir files w _
      (applyWindowingToPixelData env.littleEndian ‹List ℕ› bitsAllocated p) 'w' (by decide)
      htmp h
    have hstep : ∀ (command : String) (wd : World) (o : Option String) (w2 : World),
        rawFilesAgree dir files wd → env.execSync command wd = (o, w2) →
        rawFilesAgree dir files w2 := by
      intro command wd o w2 hwd hex
      have h2 := hexec command wd hwd
      rw [hex] at h2
      exact h2
    split
    · rename_i heq
      exact hstep _ _ _ _ h1 heq
    · rename_i heq
      have h2 := hstep _ _ _ _ h1 heq
      split
      · exact h2
      · rename_i hun
        have h3 := rawFilesAgree_unlinkSync dir files _ _ _ 'w' (by decide) htmp hun h2
        split <;> exact h3

theorem foldl_compressRatio_fromAdaptersIn {σ : Type} (inv : σ → Prop) (ad : Adapters σ)
    (hjpg : ∀ file raw width height bits quality st, inv st →
      inv (ad.jpg file raw width height bits quality st).2)
    (hjp2 : ∀ file path width height bits ratio st, inv st →
      inv (ad.jp2 file path width height bits ratio st).2)
    (hjph : ∀ file path width height bits ratio st, inv st →
      inv (ad.jph file path width height bits ratio st).2)
    (dir : RawDir) (file : String) (md : Metadata) (hmd : dir.metadata file = some md)
    (ratios : List ℕ) (acc : List ResultRecord × σ) (hst : inv acc.2)
    (hacc : ∀ r ∈ acc.1, fromAdaptersIn inv ad dir r) :
    inv (ratios.foldl (compressRatio ad dir file md) acc).2
      ∧ ∀ r ∈ (ratios.foldl (compressRatio ad dir file md) acc).1,
          fromAdaptersIn inv ad dir r := by
  induction ratios generalizing acc with
  | nil => exact ⟨hst, hacc⟩
  | cons ratio rest ih =>
    rw [List.foldl_cons]
    have h1 := hjpg file (dir.pixelData file) md.width md.height md.bitsAllocated
      (mapCompressionRatioToJpegQuality ratio) acc.2 hst
    have h2 := hjp2 file (pathJoin dir.path (file ++ ".bin")) md.width md.height
      md.bitsAllocated ratio _ h1
    have h3 := hjph file (pathJoin dir.path (file ++ ".bin")) md.width md.height
      md.bitsAllocated ratio _ h2
    apply ih
    · exact h3
    · intro x hx
      have hfst : (compressRatio ad dir file md acc ratio).1 = acc.1 ++ [_] := rfl
      rw [hfst, List.mem_append, List.mem_singleton] at hx
      rcases hx with hx | hx
      · exact hacc x hx
      · subst hx
        exact ⟨md, _, _, _, hst, h1, h2, hmd, rfl, rfl, rfl⟩

theorem foldl_compressImage_fromAdaptersIn {σ : Type} (inv : σ → Prop) (ad : Adapters σ)
    (hjpg : ∀ file raw width height bits quality st, inv st →
      inv (ad.jpg file raw width height bits quality st).2)
    (hjp2 : ∀ file path width height bits ratio st, inv st →
      inv (ad.jp2 file path width height bits ratio st).2)
    (hjph : ∀ file path width height bits ratio st, inv st →
      inv (ad.jph file path width height bits ratio st).2)
    (dir : RawDir) (files : List String) (acc : List ResultRecord × σ) (hst : inv acc.2)
    (hacc : ∀ r ∈ acc.1, fromAdaptersIn inv ad dir r) :
    inv (files.foldl (compressImage ad dir) acc).2
      ∧ ∀ r ∈ (files.foldl (compressImage ad dir) acc).1, fromAdaptersIn inv ad dir r := by
  induction files generalizing acc with
  | nil => exact ⟨hst, hacc⟩
  | cons file rest ih =>
    rw [List.foldl_cons]
    have hstep : inv (compressImage ad dir acc file).2
        ∧ ∀ r ∈ (compressImage ad dir acc file).1, fromAdaptersIn inv ad dir r := by
      unfold compressImage
      cases hmd : dir.metadata file with
      | none => exact ⟨hst, hacc⟩
      | some md =>
        exact foldl_compressRatio_fromAdaptersIn inv ad hjpg hjp2 hjph dir file md hmd _ acc
          hst hacc
    exact ih _ hstep.1 hstep.2

/-- Every record `compressImages` produces is of one of the images found. -/
theorem compressImages_filename_mem {σ : Type} (ad : Adapters σ) (dir : RawDir)
    (files : List String) (st : σ) :
    ∀ result ∈ (compressImages ad dir files st).1, result.filename ∈ files := by
  intro result hres
  have hstatic : (compressImages ad dir files st).1.map ResultRecord.staticFields
      = expectedStaticFields dir files := by
    unfold compressImages
    rw [foldl_compressImage_static]
    simp
  have hmem : result.staticFields ∈ expectedStaticFields dir files := by
    rw [← hstatic]
    exact List.mem_map_of_mem _ hres
  unfold expectedStaticFields at hmem
  rw [List.mem_flatMap] at hmem
  obtain ⟨file, hfile, hrec⟩ := hmem
  cases hmd : dir.metadata file with
  | none => simp [hmd] at hrec
  | some md =>
    simp only [hmd, List.mem_map] at hrec
    obtain ⟨ratio, _, heq⟩ := hrec
    simp only [ResultRecord.staticFields, Prod.mk.injEq] at heq
    rw [← heq.1]
    exact hfile

/-- C11: every successful sub-result of `compressToJpg`, `compressToJp2` and
`compressToJph` has `compressionRatio` equal to the byte length of the raw
pixel buffer divided by its `compressedSize`; for JPEG the numerator is the
length of the raw buffer, whereas the 8-bit buffer handed to the encoder has
half that length when `bitsAllocated > 8`; in every record of `compressImages`
the JPEG ratio is `originalSize / compressedSize`; and when the raw files on
disk hold the bytes `compressImages` read and the encoders leave them as they
are, the JP2 and JPH ratios of every record are `originalSize / compressedSize`
as well. -/
theorem compressionRatio_round_trip (env : Env) (file rawPixelDataPath : String)
    (rawPixelData : List ℕ) (width height bitsAllocated quality targetRatio : ℕ)
    (p : WindowParameters) (w : World) (s : Success) :
    ((compressToJpg env file rawPixelData width height bitsAllocated quality p w).1 = .ok s →
        s.compressionRatio = JSNum.div rawPixelData.length s.compressedSize)
      ∧ ((compressToJp2 env file rawPixelDataPath width height bitsAllocated targetRatio p
            w).1 = .ok s →
          ∃ raw, w.readFileSync rawPixelDataPath = .ok raw
            ∧ s.compressionRatio = JSNum.div raw.length s.compressedSize)
      ∧ ((compressToJph env file rawPixelDataPath width height bitsAllocated targetRatio p
            w).1 = .ok s →
          ∃ raw, w.readFileSync rawPixelDataPath = .ok raw
            ∧ s.compressionRatio = JSNum.div raw.length s.compressedSize)
      ∧ (8 < bitsAllocated →
          (jpgInputBuffer env.littleEndian rawPixelData bitsAllocated p).length
            = rawPixelData.length / 2)
      ∧ (∀ (dir : RawDir) (files : List String),
          ∀ r ∈ (compressImages (codecAdapters env) dir files w).1,
            ∀ sj, r.jpeg = .ok sj →
              sj.compressionRatio = JSNum.div r.originalSize sj.compressedSize)
      ∧ (∀ (dir : RawDir) (files : List String),
          rawFilesAgree dir files w →
          (∀ command wd, rawFilesAgree dir files wd →
            rawFilesAgree dir files (env.execSync command wd).2) →
          (∀ input wi hi q name wd, rawFilesAgree dir files wd →
            rawFilesAgree dir files
              (env.sharp input wi hi q
                (pathJoin env.outputDir (name ++ "_q" ++ toString q ++ ".jpg")) wd).2) →
          ∀ r ∈ (compressImages (codecAdapters env) dir files w).1,
            (∀ sp, r.jp2 = .ok sp →
                sp.compressionRatio = JSNum.div r.originalSize sp.compressedSize)
              ∧ (∀ sh, r.jph = .ok sh →
                  sh.compressionRatio = JSNum.div r.originalSize sh.compressedSize)) := by
  refine ⟨compressToJpg_ratio env file rawPixelData width height bitsAllocated quality p w s,
    ?_, ?_, ?_, ?_, ?_⟩
  · intro h
    obtain ⟨raw, hread⟩ := compressToJp2_reads env file rawPixelDataPath width height
      bitsAllocated targetRatio p w s h
    exact ⟨raw, hread, compressToJp2_ratio env file rawPixelDataPath raw width height
      bitsAllocated targetRatio p w s hread h⟩
  · intro h
    obtain ⟨raw, hread⟩ := compressToJph_reads env file rawPixelDataPath width height
      bitsAllocated targetRatio p w s h
    exact ⟨raw, hread, compressToJph_ratio env file rawPixelDataPath raw width height
      bitsAllocated targetRatio p w s hread h⟩
  · intro hb
    simp only [jpgInputBuffer, gt_iff_lt, hb, if_true, List.length_map, readUint16_length]
  · intro dir files r hr sj hsj
    have hsize := compressImages_originalSize (codecAdapters env) dir files w r hr
    obtain ⟨md, s1, s2, s3, _, hjpg, _, _⟩ :=
      foldl_compressImage_fromAdapters (codecAdapters env) dir files ([], w) (by simp) r hr
    rw [hsize]
    rw [hjpg] at hsj
    exact compressToJpg_ratio env _ _ _ _ _ _ defaultWindow s1 sj hsj
  · intro dir files hagree hexec hsharp r hr
    have hsize := compressImages_originalSize (codecAdapters env) dir files w r hr
    have hfile := compressImages_filename_mem (codecAdapters env) dir files w r hr
    have hinv := foldl_compressImage_fromAdaptersIn (rawFilesAgree dir files)
      (codecAdapters env)
      (fun name raw wi hi bits q st hst => by
        show rawFilesAgree dir files (compressToJpg env name raw wi hi bits q defaultWindow st).2
        rw [compressToJpg_snd]
        exact hsharp _ _ _ _ _ _ hst)
      (fun name path wi hi bits ratio st hst =>
        compressToJp2_agree env dir files hexec name path wi hi bits ratio defaultWindow st hst)
      (fun name path wi hi bits ratio st hst =>
        compressToJph_agree env dir files hexec name path wi hi bits ratio defaultWindow st hst)
      dir files ([], w) hagree (by simp)
    obtain ⟨md, s1, s2, s3, _, h2, h3, _, _, hjp2, hjph⟩ := hinv.2 r hr
    refine ⟨?_, ?_⟩
    · intro sp hsp
      rw [hjp2] at hsp
      rw [hsize]
      exact compressToJp2_ratio env _ _ _ _ _ _ _ defaultWindow s2 sp (h2 _ hfile) hsp
    · intro sh hsh
      rw [hjph] at hsh
      rw [hsize]
      exact compressToJph_ratio env _ _ _ _ _ _ _ defaultWindow s3 sh (h3 _ hfile) hsh

theorem compressToJp2_working (w : World)
    (hread : w.readFileSync "raw/img.bin" = .ok [40, 4]) :
    (compressToJp2 workingEncoderEnv "img" "raw/img.bin" 1 1 16 5 defaultWindow w).1
      = .ok sampleJp2Success := by
  have hout : pathJoin "compressed" ("img" ++ "_ratio" ++ toString 5 ++ ".jp2")
      = "compressed/img_ratio5.jp2" := by decide
  have htmp : pathJoin "compressed" ("img" ++ "_temp.pgx") = "compressed/img_temp.pgx" := by
    decide
  simp only [compressToJp2, hread, workingEncoderEnv, hout, htmp]
  simp [World.writeFileSync, World.unlinkSync, World.statSize, List.lookup,
    sampleJp2Success, JSNum.div]
  norm_num

theorem compressToJph_working (w : World)
    (hread : w.readFileSync "raw/img.bin" = .ok [40, 4]) :
    (compressToJph workingEncoderEnv "img" "raw/img.bin" 1 1 16 5 defaultWindow w).1
      = .ok sampleJphSuccess := by
  have hout : pathJoin "compressed" ("img" ++ "_ratio" ++ toString 5 ++ ".jph")
      = "compressed/img_ratio5.jph" := by decide
  have htmp : pathJoin "compressed" ("img" ++ "_temp.raw") = "compressed/img_temp.raw" := by
    decide
  simp only [compressToJph, hread, workingEncoderEnv, hout, htmp]
  simp [World.writeFileSync, World.unlinkSync, World.statSize, List.lookup,
    sampleJphSuccess, JSNum.div]
  norm_num

theorem rawFilesAgree_clock (dir : RawDir) (files : List String) (w : World) (c : ℚ)
    (h : rawFilesAgree dir files w) : rawFilesAgree dir files { w with clock := c } :=
  fun file hfile => h file hfile

theorem workingEncoderEnv_execSync_agree (dir : RawDir) (files : List String)
    (command : String) (wd : World) (h : rawFilesAgree dir files wd) :
    rawFilesAgree dir files (workingEncoderEnv.execSync command wd).2 := by
  apply rawFilesAgree_clock
  apply rawFilesAgree_writeFileSync dir files _ _ _ 'h' (by decide) (by decide)
  exact rawFilesAgree_writeFileSync dir files _ _ _ '2' (by decide) (by decide) h

theorem workingEncoderEnv_sharp_agree (dir : RawDir) (files : List String)
    (input : List ℕ) (wi hi q : ℕ) (name : String) (wd : World)
    (h : rawFilesAgree dir files wd) :
    rawFilesAgree dir files
      (workingEncoderEnv.sharp input wi hi q
        (pathJoin workingEncoderEnv.outputDir (name ++ "_q" ++ toString q ++ ".jpg")) wd).2 := by
  have hlast : (pathJoin workingEncoderEnv.outputDir
      (name ++ "_q" ++ toString q ++ ".jpg")).data.getLast? = some 'g' := by
    unfold pathJoin
    rw [← String.append_assoc]
    exact getLast_append_suffix _ _ _ (by decide)
  apply rawFilesAgree_clock
  exact rawFilesAgree_writeFileSync dir files _ _ _ 'g' (by decide) hlast h

theorem sampleRawDir_agree : rawFilesAgree sampleRawDir ["img"] oneSampleWorld := by
  intro file hfile
  rw [List.mem_singleton] at hfile
  subst hfile
  simp [sampleRawDir, pathJoin, World.readFileSync, oneSampleWorld, List.lookup]

theorem mem_foldl_compressRatio {σ : Type} (ad : Adapters σ) (dir : RawDir) (file : String)
    (md : Metadata) (ratios : List ℕ) (acc : List ResultRecord × σ) (x : ResultRecord)
    (hx : x ∈ acc.1) : x ∈ (ratios.foldl (compressRatio ad dir file md) acc).1 := by
  induction ratios generalizing acc with
  | nil => exact hx
  | cons ratio rest ih =>
    rw [List.foldl_cons]
    apply ih
    obtain ⟨r, hr, _, _⟩ := compressRatio_fst ad dir file md acc ratio
    rw [hr]
    exact List.mem_append_left _ hx

/-- The first record of the sweep over the sample directory on the working
host: it is in the result list, its `originalSize` is 2 and its JP2 and JPH
sub-results are the expected successes. -/
theorem sample_first_record :
    ∃ r ∈ (compressImages (codecAdapters workingEncoderEnv) sampleRawDir ["img"]
        oneSampleWorld).1,
      r.originalSize = 2 ∧ r.jp2 = .ok sampleJp2Success ∧ r.jph = .ok sampleJphSuccess := by
  have hpath : pathJoin "raw" ("img" ++ ".bin") = "raw/img.bin" := by decide
  have hagree (wd : World) (h : rawFilesAgree sampleRawDir ["img"] wd) :
      wd.readFileSync "raw/img.bin" = .ok [40, 4] := by
    have := h "img" (List.mem_singleton.mpr rfl)
    simpa [sampleRawDir, hpath] using this
  have hA : rawFilesAgree sampleRawDir ["img"]
      (compressToJpg workingEncoderEnv "img" [40, 4] 1 1 16
        (mapCompressionRatioToJpegQuality ((5 : ℕ) : ℚ)) defaultWindow oneSampleWorld).2 := by
    rw [compressToJpg_snd]
    exact workingEncoderEnv_sharp_agree _ _ _ _ _ _ _ _ sampleRawDir_agree
  have hB := compressToJp2_agree workingEncoderEnv sampleRawDir ["img"]
    (workingEncoderEnv_execSync_agree sampleRawDir ["img"]) "img" "raw/img.bin" 1 1 16 5
    defaultWindow _ hA
  refine ⟨{ filename := "img", width := 1, height := 1, bitDepth := 16,
            targetCompressionRatio := 5, originalSize := 2,
            jpeg := (compressToJpg workingEncoderEnv "img" [40, 4] 1 1 16
              (mapCompressionRatioToJpegQuality ((5 : ℕ) : ℚ)) defaultWindow oneSampleWorld).1,
            jp2 := .ok sampleJp2Success, jph := .ok sampleJphSuccess }, ?_, rfl, rfl, rfl⟩
  have hmd : sampleRawDir.metadata "img"
      = some { width := 1, height := 1, bitsAllocated := 16, bitsStored := 16,
               photometricInterpretation := "MONOCHROME2" } := by
    simp [sampleRawDir]
  have hdata : sampleRawDir.pixelData "img" = [40, 4] := by simp [sampleRawDir]
  have hfirst : (compressRatio (codecAdapters workingEncoderEnv) sampleRawDir "img"
      { width := 1, height := 1, bitsAllocated := 16, bitsStored := 16,
        photometricInterpretation := "MONOCHROME2" } ([], oneSampleWorld) 5).1
      = [{ filename := "img", width := 1, height := 1, bitDepth := 16,
           targetCompressionRatio := 5, originalSize := 2,
           jpeg := (compressToJpg workingEncoderEnv "img" [40, 4] 1 1 16
             (mapCompressionRatioToJpegQuality ((5 : ℕ) : ℚ)) defaultWindow
             oneSampleWorld).1,
           jp2 := .ok sampleJp2Success, jph := .ok sampleJphSuccess }] := by
    simp only [compressRatio, codecAdapters, hdata, List.nil_append, List.length_cons,
      List.length_nil, show sampleRawDir.path = "raw" from rfl, hpath]
    rw [compressToJp2_working _ (hagree _ hA), compressToJph_working _ (hagree _ hB)]
  unfold compressImages
  simp only [List.foldl_cons, List.foldl_nil, compressImage, hmd]
  refine mem_foldl_compressRatio (codecAdapters workingEncoderEnv) sampleRawDir "img" _
    [10, 15, 20, 30, 50] (compressRatio (codecAdapters workingEncoderEnv) sampleRawDir "img" _
      ([], oneSampleWorld) 5) _ ?_
  rw [hfirst]
  exact List.mem_singleton.mpr rfl

/-- Witness of C11: the one-sample image (2 raw bytes) on a host whose encoders
leave 4-byte artifacts; the three adapters succeed with ratio `2 / 4`, while
the 8-bit buffer handed to the JPEG encoder has length 1; and in the sweep over
the sample directory, whose raw file the encoders leave as it is, the record of
target ratio 5 has `originalSize` 2 and successful JP2 and JPH sub-results of
ratio `originalSize / compressedSize`. -/
theorem compressionRatio_round_trip_witness :
    (compressToJpg workingEncoderEnv "img" [40, 4] 1 1 16 80 defaultWindow oneSampleWorld).1
        = .ok sampleJpgSuccess
      ∧ sampleJpgSuccess.compressionRatio
          = JSNum.div ([40, 4] : List ℕ).length sampleJpgSuccess.compressedSize
      ∧ (compressToJp2 workingEncoderEnv "img" "raw/img.bin" 1 1 16 5 defaultWindow
          oneSampleWorld).1 = .ok sampleJp2Success
      ∧ (∃ raw, oneSampleWorld.readFileSync "raw/img.bin" = .ok raw
          ∧ sampleJp2Success.compressionRatio
            = JSNum.div raw.length sampleJp2Success.compressedSize)
      ∧ (compressToJph workingEncoderEnv "img" "raw/img.bin" 1 1 16 5 defaultWindow
          oneSampleWorld).1 = .ok sampleJphSuccess
      ∧ (∃ raw, oneSampleWorld.readFileSync "raw/img.bin" = .ok raw
          ∧ sampleJphSuccess.compressionRatio
            = JSNum.div raw.length sampleJphSuccess.compressedSize)
      ∧ (jpgInputBuffer workingEncoderEnv.littleEndian [40, 4] 16 defaultWindow).length
          = ([40, 4] : List ℕ).length / 2
      ∧ rawFilesAgree sampleRawDir ["img"] oneSampleWorld
      ∧ (∃ r ∈ (compressImages (codecAdapters workingEncoderEnv) sampleRawDir ["img"]
            oneSampleWorld).1,
          r.originalSize = 2 ∧ r.jp2 = .ok sampleJp2Success ∧ r.jph = .ok sampleJphSuccess
            ∧ sampleJp2Success.compressionRatio
              = JSNum.div r.originalSize sampleJp2Success.compressedSize
            ∧ sampleJphSuccess.compressionRatio
              = JSNum.div r.originalSize sampleJphSuccess.compressedSize) := by
  refine ⟨compressToJpg_sample,
   (compressionRatio_round_trip workingEncoderEnv "img" "raw/img.bin" [40, 4] 1 1 16 80 5
      defaultWindow oneSampleWorld sampleJpgSuccess).1 compressToJpg_sample,
   compressToJp2_sample,
   (compressionRatio_round_trip workingEncoderEnv "img" "raw/img.bin" [40, 4] 1 1 16 80 5
      defaultWindow oneSampleWorld sampleJp2Success).2.1 compressToJp2_sample,
   compressToJph_sample,
   (compressionRatio_round_trip workingEncoderEnv "img" "raw/img.bin" [40, 4] 1 1 16 80 5
      defaultWindow oneSampleWorld sampleJphSuccess).2.2.1 compressToJph_sample,
   (compressionRatio_round_trip workingEncoderEnv "img" "raw/img.bin" [40, 4] 1 1 16 80 5
      defaultWindow oneSampleWorld sampleJpgSuccess).2.2.2.1 (by decide),
   sampleRawDir_agree, ?_⟩
  obtain ⟨r, hr, hsize, hjp2, hjph⟩ := sample_first_record
  have h6 := (compressionRatio_round_trip workingEncoderEnv "img" "raw/img.bin" [40, 4] 1 1
    16 80 5 defaultWindow oneSampleWorld sampleJpgSuccess).2.2.2.2.2 sampleRawDir ["img"]
    sampleRawDir_agree (workingEncoderEnv_execSync_agree sampleRawDir ["img"])
    (workingEncoderEnv_sharp_agree sampleRawDir ["img"]) r hr
  exact ⟨r, hr, hsize, hjp2, hjph, h6.1 _ hjp2, h6.2 _ hjph⟩

end Compress
